import Mathlib

/-!
Verification of the photo_org repository: a shallow embedding in Lean 4 of
`photocatalog.py` (the media organizer) and `triphistory.py` (the trip
symlink grouper), together with proofs and refutations of the behavioural
claims made by the specification.

Conventions of the embedding:
* Python `datetime` values are modelled by `PyDateTime` (proleptic Gregorian
  calendar, years 1..9999, exact integer arithmetic).
* The filesystem seen by one run is modelled explicitly: source files carry
  the per-file environment (EXIF load outcome, stat times, readability,
  transfer success), the destination tree is a list of files plus existing
  day directories and non-directory blockers.
* Content digests are modelled injectively (a digest collision is assumed
  not to happen, which is what the dedup logic itself assumes).
-/

namespace PhotoOrg

/-! ### Decimal representation: `Nat.repr` is injective

The collision-renaming loop of `organize_media` builds candidate file names
with a decimal counter; to reason about the loop (distinctness of the tried
names, termination) we first prove that the decimal string of a natural
number determines the number.
-/

/-- Numeric value of a decimal digit character. -/
def digitVal (c : Char) : Nat := c.toNat - 48

/-- Value of a decimal digit string (most significant first). -/
def decVal (l : List Char) : Nat := l.foldl (fun a c => 10 * a + digitVal c) 0

/-! ### Calendar and datetime model

Python `datetime` objects are proleptic-Gregorian timestamps restricted to
years 1..9999.  Subtracting a `timedelta` is exact timeline arithmetic that
raises `OverflowError` when the result leaves that range; we model it by
walking the calendar day by day, which a spec-side timeline (`absDay`,
`absSec`) later proves correct.
-/

/-- Gregorian leap-year rule, as Python's `calendar.isleap`. -/
def isLeap (y : Nat) : Bool := y % 4 == 0 && (y % 100 != 0 || y % 400 == 0)

/-- Length of month `m` (1..12) of year `y`; 0 for out-of-range months. -/
def daysInMonth (y m : Nat) : Nat :=
  match m with
  | 1 => 31
  | 2 => if isLeap y then 29 else 28
  | 3 => 31
  | 4 => 30
  | 5 => 31
  | 6 => 30
  | 7 => 31
  | 8 => 31
  | 9 => 30
  | 10 => 31
  | 11 => 30
  | 12 => 31
  | _ => 0

/-- A naive Python `datetime` value. -/
structure PyDateTime where
  year : Nat
  month : Nat
  day : Nat
  hour : Nat
  minute : Nat
  second : Nat
deriving DecidableEq, Repr

/-- The range constraint enforced by the `datetime` constructor. -/
def dtValid (t : PyDateTime) : Prop :=
  1 ≤ t.year ∧ t.year ≤ 9999 ∧ 1 ≤ t.month ∧ t.month ≤ 12 ∧
  1 ≤ t.day ∧ t.day ≤ daysInMonth t.year t.month ∧
  t.hour ≤ 23 ∧ t.minute ≤ 59 ∧ t.second ≤ 59

instance : DecidablePred dtValid := fun t => by unfold dtValid; infer_instance

/-- Successor day in the calendar; `none` past 9999-12-31 (Python overflow). -/
def nextDate (t : PyDateTime) : Option PyDateTime :=
  if t.day < daysInMonth t.year t.month then some { t with day := t.day + 1 }
  else if t.month < 12 then some { t with month := t.month + 1, day := 1 }
  else if t.year < 9999 then some { t with year := t.year + 1, month := 1, day := 1 }
  else none

/-- Previous day in the calendar; `none` before 0001-01-01 (Python overflow). -/
def prevDate (t : PyDateTime) : Option PyDateTime :=
  if 1 < t.day then some { t with day := t.day - 1 }
  else if 1 < t.month then
    some { t with month := t.month - 1, day := daysInMonth t.year (t.month - 1) }
  else if 1 < t.year then some { t with year := t.year - 1, month := 12, day := 31 }
  else none

/-- Walk `n` days forward (`up = true`) or backward from `t`. -/
def shiftDaysBy : PyDateTime → Bool → Nat → Option PyDateTime
  | t, _, 0 => some t
  | t, true, n + 1 =>
    match nextDate t with
    | none => none
    | some t' => shiftDaysBy t' true n
  | t, false, n + 1 =>
    match prevDate t with
    | none => none
    | some t' => shiftDaysBy t' false n

def timeOfDaySec (t : PyDateTime) : Nat :=
  t.hour * 3600 + t.minute * 60 + t.second

def withTimeOfDay (t : PyDateTime) (tod : Nat) : PyDateTime :=
  { t with hour := tod / 3600, minute := tod % 3600 / 60, second := tod % 60 }

/-- Python `dt - timedelta(minutes=delta)` (exact; `none` on overflow): the
day shift is the euclidean quotient of the second count by 86400, the new
time of day its remainder. -/
def subMinutes (t : PyDateTime) (delta : Int) : Option PyDateTime :=
  (shiftDaysBy t
      (decide (0 ≤ ((timeOfDaySec t : Int) - delta * 60) / 86400))
      ((((timeOfDaySec t : Int) - delta * 60) / 86400).natAbs)).map
    (fun d =>
      withTimeOfDay d ((((timeOfDaySec t : Int) - delta * 60) % 86400).toNat))

/-- Days in year `y` of the Gregorian calendar. -/
def daysInYear (y : Nat) : Nat := if isLeap y then 366 else 365

/-- Days of year `y` strictly before month `m`. -/
def daysBeforeMonth (y : Nat) : Nat → Nat
  | 0 => 0
  | m + 1 => daysBeforeMonth y m + daysInMonth y m

/-- Days in the calendar years strictly before year `y` (years count from 1). -/
def daysBeforeYear : Nat → Nat
  | 0 => 0
  | 1 => 0
  | y + 2 => daysBeforeYear (y + 1) + daysInYear (y + 1)

/-- Spec-side timeline: ordinal day number of a date (0001-01-01 is day 1). -/
def absDay (t : PyDateTime) : Nat :=
  daysBeforeYear t.year + daysBeforeMonth t.year t.month + t.day

/-- Spec-side timeline in seconds. -/
def absSec (t : PyDateTime) : Int :=
  (absDay t : Int) * 86400 + (timeOfDaySec t : Int)

/-! ### String formatting (`strftime`) -/

/-- Zero-padded two-digit field, as `strftime` `%m`/`%d`/`%H`/`%M`/`%S`. -/
def pad2 (n : Nat) : String := if n < 10 then "0" ++ Nat.repr n else Nat.repr n

/-- `strftime("%Y-%m-%d %H:%M:%S")` of a naive datetime (glibc leaves `%Y`
unpadded, which only matters for years below 1000). -/
def fmtNoTz (t : PyDateTime) : String :=
  Nat.repr t.year ++ "-" ++ pad2 t.month ++ "-" ++ pad2 t.day ++ " " ++
    pad2 t.hour ++ ":" ++ pad2 t.minute ++ ":" ++ pad2 t.second

/-- `strftime("%Y-%m-%d %H:%M:%S%z")` of a UTC-aware datetime. -/
def fmtTz (t : PyDateTime) : String := fmtNoTz t ++ "+0000"

/-! ### `strptime` emulation

CPython's `_strptime` matches each directive with a regular expression
(`%Y` is exactly four digits; `%m`, `%d`, `%H`, `%M`, `%S` allow one- or
two-digit forms with the two-digit alternatives tried first) and then runs
the `datetime` constructor, which range-checks the fields.
-/

def digit2 (a b : Char) : Nat := 10 * digitVal a + digitVal b

def parseYear4 : List Char → Option (Nat × List Char)
  | a :: b :: c :: d :: rest =>
    if a.isDigit ∧ b.isDigit ∧ c.isDigit ∧ d.isDigit then
      some (1000 * digitVal a + 100 * digitVal b + 10 * digitVal c + digitVal d, rest)
    else none
  | _ => none

/-- Directive `%m`: regex `1[0-2]|0[1-9]|[1-9]`. -/
def parseMonth : List Char → Option (Nat × List Char)
  | a :: b :: rest =>
    if a = '1' ∧ '0' ≤ b ∧ b ≤ '2' then some (10 + digitVal b, rest)
    else if a = '0' ∧ '1' ≤ b ∧ b ≤ '9' then some (digitVal b, rest)
    else if '1' ≤ a ∧ a ≤ '9' then some (digitVal a, b :: rest)
    else none
  | [a] => if '1' ≤ a ∧ a ≤ '9' then some (digitVal a, []) else none
  | [] => none

/-- Directive `%d`: regex `3[01]|[12]\d|0[1-9]|[1-9]`. -/
def parseDay : List Char → Option (Nat × List Char)
  | a :: b :: rest =>
    if a = '3' ∧ '0' ≤ b ∧ b ≤ '1' then some (30 + digitVal b, rest)
    else if (a = '1' ∨ a = '2') ∧ b.isDigit then some (digit2 a b, rest)
    else if a = '0' ∧ '1' ≤ b ∧ b ≤ '9' then some (digitVal b, rest)
    else if '1' ≤ a ∧ a ≤ '9' then some (digitVal a, b :: rest)
    else none
  | [a] => if '1' ≤ a ∧ a ≤ '9' then some (digitVal a, []) else none
  | [] => none

/-- Directive `%H`: regex `2[0-3]|[0-1]\d|\d`. -/
def parseHour : List Char → Option (Nat × List Char)
  | a :: b :: rest =>
    if a = '2' ∧ '0' ≤ b ∧ b ≤ '3' then some (20 + digitVal b, rest)
    else if (a = '0' ∨ a = '1') ∧ b.isDigit then some (digit2 a b, rest)
    else if a.isDigit then some (digitVal a, b :: rest)
    else none
  | [a] => if a.isDigit then some (digitVal a, []) else none
  | [] => none

/-- Directive `%M`: regex `[0-5]\d|\d`. -/
def parseMinute : List Char → Option (Nat × List Char)
  | a :: b :: rest =>
    if '0' ≤ a ∧ a ≤ '5' ∧ b.isDigit then some (digit2 a b, rest)
    else if a.isDigit then some (digitVal a, b :: rest)
    else none
  | [a] => if a.isDigit then some (digitVal a, []) else none
  | [] => none

/-- Directive `%S`: regex `6[0-1]|[0-5]\d|\d`. -/
def parseSecond : List Char → Option (Nat × List Char)
  | a :: b :: rest =>
    if a = '6' ∧ '0' ≤ b ∧ b ≤ '1' then some (digit2 a b, rest)
    else if '0' ≤ a ∧ a ≤ '5' ∧ b.isDigit then some (digit2 a b, rest)
    else if a.isDigit then some (digitVal a, b :: rest)
    else none
  | [a] => if a.isDigit then some (digitVal a, []) else none
  | [] => none

def expectC (c : Char) : List Char → Option (List Char)
  | a :: rest => if a = c then some rest else none
  | [] => none

/-- `datetime.strptime` for format `%Y<sep>%m<sep>%d %H:%M:%S`. -/
def pyStrptime6 (sep : Char) (l : List Char) : Option PyDateTime :=
  match parseYear4 l with
  | none => none
  | some (y, l) =>
    match expectC sep l with
    | none => none
    | some l =>
      match parseMonth l with
      | none => none
      | some (mo, l) =>
        match expectC sep l with
        | none => none
        | some l =>
          match parseDay l with
          | none => none
          | some (d, l) =>
            match expectC ' ' l with
            | none => none
            | some l =>
              match parseHour l with
              | none => none
              | some (h, l) =>
                match expectC ':' l with
                | none => none
                | some l =>
                  match parseMinute l with
                  | none => none
                  | some (mi, l) =>
                    match expectC ':' l with
                    | none => none
                    | some l =>
                      match parseSecond l with
                      | none => none
                      | some (s, l) =>
                        if l = [] then
                          if dtValid ⟨y, mo, d, h, mi, s⟩ then
                            some ⟨y, mo, d, h, mi, s⟩
                          else none
                        else none

/-- The two datetime formats tried (lines 133-136 of `photocatalog.py`):
colon-separated date first, dash-separated on `ValueError`. -/
def parseOriginalDT (s : String) : Option PyDateTime :=
  match pyStrptime6 ':' s.data with
  | some t => some t
  | none => pyStrptime6 '-' s.data

/-- Sign and digit handling of Python `int(str)` after whitespace
stripping: optional sign, then a nonempty run of decimal digits. -/
def pyIntCore : List Char → Option Int
  | [] => none
  | c :: ds =>
    if c = '+' then
      if ds ≠ [] ∧ ds.all Char.isDigit then some (decVal ds : Int) else none
    else if c = '-' then
      if ds ≠ [] ∧ ds.all Char.isDigit then some (-(decVal ds : Int)) else none
    else if (c :: ds).all Char.isDigit then some (decVal (c :: ds) : Int)
    else none

/-- Python `int(str)`: optional surrounding whitespace, optional sign,
then a nonempty run of decimal digits. -/
def pyInt (l : List Char) : Option Int :=
  pyIntCore (((l.dropWhile Char.isWhitespace).reverse.dropWhile
    Char.isWhitespace).reverse)

/-- Python `str.split(sep)` for a one-character separator. -/
def pySplitChar (sep : Char) : List Char → List (List Char)
  | [] => [[]]
  | c :: rest =>
    match pySplitChar sep rest with
    | [] => [[]]
    | cur :: parts =>
      if c = sep then [] :: cur :: parts else (c :: cur) :: parts

/-- `offset_hours, offset_minutes = map(int, offset.split(':'))`: succeeds
only when the split yields exactly two int-parsable parts. -/
def parseOffsetPair (s : String) : Option (Int × Int) :=
  match pySplitChar ':' s.data with
  | [hL, mL] =>
    match pyInt hL, pyInt mL with
    | some a, some b => some (a, b)
    | _, _ => none
  | _ => none

def epochDT : PyDateTime := ⟨1970, 1, 1, 0, 0, 0⟩

/-- Model of `UTC_from_exif` (lines 117-162 of `photocatalog.py`).  Parse
failures of the datetime or the offset raise `ValueError`, whose handler
returns the naive epoch formatted without a `%z` suffix; a subtraction
overflow lands in the generic handler, which formats the naive parsed
datetime. -/
def UTC_from_exif (original offset : String) : String :=
  match parseOriginalDT original with
  | none => fmtNoTz epochDT
  | some dt =>
    match parseOffsetPair (if offset = "" then "00:00" else offset) with
    | none => fmtNoTz epochDT
    | some (oh, om) =>
      match subMinutes dt (oh * 60 + om) with
      | none => fmtNoTz dt
      | some u => fmtTz u

/-! ### EXIF extraction and the date resolver -/

/-- The two `REQUIRED_TAGS` as they come out of a successful `piexif.load`:
present (decoded to a string) or absent from the Exif IFD. -/
structure ExifTags where
  dto : Option String
  oto : Option String
deriving DecidableEq, Repr

/-- Per-file environment: the outcome of `piexif.load` (`none` models an
exception), and the `os.stat` timestamps.  `ctimeStat` is `st_ctime`
(`none` models a failing `stat`); `mtimeStat` is `st_mtime`, which the
code never reads — it is carried so that claims about it can be stated. -/
structure MetaEnv where
  exifLoad : Option ExifTags
  ctimeStat : Option PyDateTime
  mtimeStat : PyDateTime
deriving DecidableEq, Repr

/-- Model of `get_file_ctime` (lines 166-185): formats `st_ctime`, `none`
on a stat error. -/
def get_file_ctime (m : MetaEnv) : Option String := m.ctimeStat.map fmtNoTz

/-- Regex `^\s*:` used for partially blank offsets (line 220). -/
def leadingColonBlank (s : String) : Bool :=
  match s.data.dropWhile Char.isWhitespace with
  | ':' :: _ => true
  | _ => false

/-- Model of `extract_exif` (lines 189-227): on a `piexif` failure the
datetime falls back to `st_ctime` with offset `"00:00"`; afterwards an
offset matching `^\s*:` is replaced by `"00:00"`. -/
def extract_exif (m : MetaEnv) : ExifTags :=
  let info : ExifTags :=
    match m.exifLoad with
    | some t => t
    | none => { dto := get_file_ctime m, oto := some "00:00" }
  if leadingColonBlank (info.oto.getD "") then { info with oto := some "00:00" }
  else info

/-- Python truthiness of an optional string (`None` and `""` are falsy). -/
def truthy : Option String → Bool
  | some s => s ≠ ""
  | none => false

/-- Model of `get_file_datetime_from_exif` (lines 248-261). -/
def get_file_datetime_from_exif (m : MetaEnv) : Option String :=
  let tags := extract_exif m
  if truthy tags.dto then
    some (UTC_from_exif (tags.dto.getD "") (tags.oto.getD "00:00"))
  else
    get_file_ctime m

/-! ### Content hasher (`get_file_hash`, lines 234-246)

The digest state is modelled as the concatenation of all bytes fed to
`hasher.update`; the read loop feeds blocks of `block_size` bytes until
`f.read` returns empty.
-/

/-- The bytes fed to the digest by the read loop with 65536-byte blocks. -/
def hashFeed : List Nat → List Nat
  | [] => []
  | b :: bs =>
    (b :: bs).take 65536 ++ hashFeed ((b :: bs).drop 65536)
termination_by bs => bs.length
decreasing_by simp [List.length_drop]; omega

/-- Model of `get_file_hash` at byte level: the dedup key of a readable
file is the digest of the byte stream fed by the block loop; an `IOError`
yields `None` instead of an exception. -/
def get_file_hash_bytes (readable : Bool) (bytes : List Nat) : Option (List Nat) :=
  if readable then some (hashFeed bytes) else none

/-! ### Extension classifier -/

def ALL_EXTENSIONS : List String :=
  [".jpg", ".jpeg", ".png", ".gif", ".bmp", ".tiff", ".webp", ".heic", ".heif",
   ".dng", ".cib", ".nef", ".nrw", ".orf", ".oif", ".cr2", ".cr3", ".craw",
   ".raw", ".rw2", ".fff", ".3pr", ".3fr", ".arw", ".sr2", ".srf", ".rwl",
   ".raf", ".srw", ".avi", ".mp4", ".mov"]

def pyLower (s : String) : String := ⟨s.data.map Char.toLower⟩

/-- `filename.lower().endswith(ALL_EXTENSIONS)` (lines 291 and 327). -/
def supportedName (nm : String) : Bool :=
  ALL_EXTENSIONS.any (fun e => e.data.isSuffixOf (pyLower nm).data)

/-! ### Destination namer -/

/-- `os.path.splitext` on a basename. -/
def pySplitExt (s : String) : String × String :=
  match (s.data.reverse.findIdx? (· = '.')) with
  | none => (s, "")
  | some j =>
    if (s.data.take (s.data.length - 1 - j)).all (· = '.') then (s, "")
    else (⟨s.data.take (s.data.length - 1 - j)⟩, ⟨s.data.drop (s.data.length - 1 - j)⟩)

/-- `file_dt.split(' ')[0]`. -/
def dayFolderOf (dt : String) : String := ⟨dt.data.takeWhile (· ≠ ' ')⟩

/-- First component of `day_folder_name.split('-')` (the year string). -/
def yearOf (day : String) : String := ⟨day.data.takeWhile (· ≠ '-')⟩

/-- A file in the destination tree: its day directory (year component and
`YYYY-MM-DD` folder name), basename, and content digest. -/
structure DestFile where
  dir : String × String
  name : String
  content : Nat
deriving DecidableEq, Repr

/-- Destination tree state: media files, existing day directories, and
paths where a non-directory sits at a day-directory location. -/
structure Dest where
  files : List DestFile
  dirs : List (String × String)
  blockers : List (String × String)
deriving DecidableEq, Repr

/-- Content of the file at a path, if one exists (`os.path.exists` plus
`get_file_hash` on the target). -/
def destLookup (files : List DestFile) (dir : String × String) (nm : String) :
    Option Nat :=
  (files.find? (fun g => decide (g.dir = dir ∧ g.name = nm))).map (·.content)

def dayIsDir (d : Dest) (p : String × String) : Bool :=
  decide (p ∈ d.dirs) || d.files.any (fun g => decide (g.dir = p))

def dayExistsFS (d : Dest) (p : String × String) : Bool :=
  dayIsDir d p || decide (p ∈ d.blockers)

/-- Result of the name-collision loop: the source is an exact duplicate of
a file already at a tried target path, or a free name was found (with the
amount the loop added to `files_renamed`). -/
inductive CollideRes where
  | dup (rdelta : Nat) : CollideRes
  | fresh (nm : String) (rdelta : Nat) : CollideRes
deriving DecidableEq, Repr

/-- Candidate name number `k` for an original filename split as
`(stem, ext)`: the original itself for `k = 0`, else `stem_k·ext`. -/
def candName (orig stem ext : String) (k : Nat) : String :=
  if k = 0 then orig else stem ++ "_" ++ Nat.repr k ++ ext

/-- The `while os.path.exists(target_filepath)` loop (lines 367-388).
`counter` is `name_collision_counter`, `cur` the current candidate name,
`r` the running addition to `files_renamed`.  The fuel only bounds the
iteration count; `collideLoop_spec` shows the fuel used by `collide` is
never exhausted. -/
def collideLoop (files : List DestFile) (dir : String × String)
    (stem ext : String) (h : Nat) : Nat → Nat → String → Nat → CollideRes
  | 0, _, cur, r => .fresh cur r
  | fuel + 1, counter, cur, r =>
    match destLookup files dir cur with
    | none => .fresh cur r
    | some c =>
      if c = h then .dup r
      else
        collideLoop files dir stem ext h fuel (counter + 1)
          (stem ++ "_" ++ Nat.repr counter ++ ext)
          (if counter = 1 then r + 1 else r)

def collide (files : List DestFile) (dir : String × String) (orig : String)
    (h : Nat) : CollideRes :=
  collideLoop files dir (pySplitExt orig).1 (pySplitExt orig).2 h
    (files.length + 2) 1 orig 0

/-! ### Placement engine (`organize_media`, lines 264-447) -/

/-- A source file together with its per-run environment: whether hashing,
transfer and `os.remove` would succeed for it. -/
structure SrcFile where
  path : String
  name : String
  meta : MetaEnv
  content : Nat
  hashable : Bool
  transferOk : Bool
  removeOk : Bool
deriving DecidableEq, Repr

/-- Run flags plus the structural-environment outcomes: whether the source
root is a directory, whether the destination root already is one, whether
creating it would succeed, and which day directories `os.makedirs` would
fail to create. -/
structure Config where
  deleteSourceDuplicates : Bool
  dryRun : Bool
  copyMode : Bool
  sourceIsDir : Bool
  destIsDir : Bool
  destRootOk : Bool
  mkdirFails : List (String × String)
deriving DecidableEq, Repr

/-- Engine state: destination tree, the in-memory digest set
`processed_file_hashes`, the six counters, and the source paths deleted by
`os.remove`. -/
structure RunState where
  dest : Dest
  hashes : List Nat
  scanned : Nat
  transferred : Nat
  skipped : Nat
  renamed : Nat
  errored : Nat
  dupsRemoved : Nat
  removedSources : List String
deriving DecidableEq, Repr

/-- `get_file_hash` on a source file, at digest granularity. -/
def get_file_hash (f : SrcFile) : Option Nat :=
  if f.hashable then some f.content else none

/-- The transfer step at the end of the per-file body (lines 409-421). -/
def transferStep (cfg : Config) (f : SrcFile) (dir : String × String)
    (nm : String) (h : Nat) (st : RunState) : RunState :=
  if ¬ cfg.dryRun then
    if f.transferOk then
      { st with
        dest := { st.dest with files := st.dest.files ++ [⟨dir, nm, f.content⟩] }
        hashes := h :: st.hashes
        transferred := st.transferred + 1 }
    else { st with errored := st.errored + 1 }
  else
    { st with hashes := h :: st.hashes, transferred := st.transferred + 1 }

/-- Day-directory handling plus transfer (lines 393-421): create the day
directory when absent (a failure errors this file only), error when a
non-directory occupies the path, then transfer. -/
def dirAndTransfer (cfg : Config) (f : SrcFile) (dir : String × String)
    (nm : String) (h : Nat) (st : RunState) : RunState :=
  if ¬ dayExistsFS st.dest dir then
    if ¬ cfg.dryRun then
      if dir ∈ cfg.mkdirFails then { st with errored := st.errored + 1 }
      else
        transferStep cfg f dir nm h
          { st with dest := { st.dest with dirs := dir :: st.dest.dirs } }
    else transferStep cfg f dir nm h st
  else if ¬ dayIsDir st.dest dir then { st with errored := st.errored + 1 }
  else transferStep cfg f dir nm h st

/-- Day directory for a resolved datetime string:
`(year_str, day_folder_name)` from lines 341-343. -/
def targetDirOf (fdt : String) : String × String :=
  (yearOf (dayFolderOf fdt), dayFolderOf fdt)

/-- The delete-source-duplicates action attached to both duplicate exits
(lines 354-360 and 373-378): only the destination-index branch counts the
removal in `dups_removed`. -/
def dupDelete (cfg : Config) (f : SrcFile) (countRemoved : Bool)
    (st : RunState) : RunState :=
  if cfg.deleteSourceDuplicates ∧ ¬ cfg.dryRun then
    if f.removeOk then
      if countRemoved then
        { st with removedSources := f.path :: st.removedSources,
                  dupsRemoved := st.dupsRemoved + 1 }
      else { st with removedSources := f.path :: st.removedSources }
    else st
  else st

/-- The body of the per-file loop of `organize_media` (lines 319-421). -/
def processFile (cfg : Config) (st : RunState) (f : SrcFile) : RunState :=
  if ¬ supportedName f.name then st
  else
    match get_file_datetime_from_exif f.meta with
    | none => { st with scanned := st.scanned + 1, errored := st.errored + 1 }
    | some fdt =>
      match get_file_hash f with
      | none => { st with scanned := st.scanned + 1, errored := st.errored + 1 }
      | some h =>
        if h ∈ st.hashes then
          dupDelete cfg f true
            { st with scanned := st.scanned + 1, skipped := st.skipped + 1 }
        else
          match collide st.dest.files (targetDirOf fdt) f.name h with
          | .dup rdelta =>
            dupDelete cfg f false
              { st with scanned := st.scanned + 1,
                        skipped := st.skipped + 1,
                        renamed := st.renamed + rdelta }
          | .fresh nm rdelta =>
            dirAndTransfer cfg f (targetDirOf fdt) nm h
              { st with scanned := st.scanned + 1,
                        renamed := st.renamed + rdelta }

/-- The digest seed built by the startup destination walk (lines 283-299):
skipped entirely in dry-run mode. -/
def seedHashes (cfg : Config) (dest0 : Dest) : List Nat :=
  if cfg.dryRun then []
  else (dest0.files.filter (fun g => supportedName g.name)).map (·.content)

/-- Model of `organize_media`: `none` models the early `return` on a
structural failure (source root missing, destination root uncreatable),
`some st` the final state whose counters the summary prints. -/
def organize_media (cfg : Config) (files : List SrcFile) (dest0 : Dest) :
    Option RunState :=
  if ¬ cfg.sourceIsDir then none
  else if ¬ cfg.destIsDir ∧ ¬ cfg.dryRun ∧ ¬ cfg.destRootOk then none
  else
    some (files.foldl (processFile cfg)
      ⟨dest0, seedHashes cfg dest0, 0, 0, 0, 0, 0, 0, []⟩)

/-- Model of `main` (lines 450-499): it calls `organize_media` and falls
off the end, so the process exit status is 0 on every path, including the
structural-failure early returns. -/
def photocatalog_main_exit (cfg : Config) (files : List SrcFile)
    (dest0 : Dest) : Nat :=
  let _ := organize_media cfg files dest0
  0

/-- Largest day index of the representable datetime range. -/
def maxAbsDay : Nat := daysBeforeYear 9999 + daysBeforeMonth 9999 12 + 31

/-- Candidate number `j` for `orig` is occupied at the target day directory
by a file of different content (so the collision loop keeps going). -/
def occDiff (files : List DestFile) (dir : String × String)
    (orig stem ext : String) (h j : Nat) : Prop :=
  ∃ c, destLookup files dir (candName orig stem ext j) = some c ∧ c ≠ h

/-- The resolved datetime string of a source file (empty when the
resolver fails). -/
def fdtOf (f : SrcFile) : String := (get_file_datetime_from_exif f.meta).getD ""

/-- The target day directory of a source file. -/
def tdir (f : SrcFile) : String × String := targetDirOf (fdtOf f)

/-! ### Trip grouping (`triphistory.py`, `process_trips_from_config_dict`) -/

namespace TripHistory

/-- One entry of the `trips` list of the YAML config. -/
structure TripEntry where
  name : String
  startDate : String
  endDate : String
deriving DecidableEq, Repr

/-- A directory entry inside a day directory, as `iterdir` reports it. -/
structure PhotoEntry where
  name : String
  regular : Bool
  isLink : Bool
deriving DecidableEq, Repr

/-- An entry of a year directory. -/
structure DayEntry where
  name : String
  isDir : Bool
  photos : List PhotoEntry
deriving DecidableEq, Repr

/-- An entry of the source root. -/
structure YearEntry where
  name : String
  isDir : Bool
  days : List DayEntry
deriving DecidableEq, Repr

/-- Environment outcomes: whether creating the target root would succeed,
which trip directories `mkdir` would fail on, and which source photos
`symlink_to` would fail on. -/
structure TripWorld where
  rootMkdirOk : Bool
  tripMkdirFails : List (String × String)
  linkFails : List (String × String × String)
deriving DecidableEq, Repr

/-- How a run of the trip processor can abort: `sys.exit(1)` when the
target root cannot be created, or an uncaught `ValueError` from
`parse_date`. -/
inductive TripErr where
  | sysExit : TripErr
  | valueError : TripErr
deriving DecidableEq, Repr

/-- Created trip directories and symlinks: each link records the trip
directory (year component, sanitized trip name), the link's basename, and
the resolved source path (year dir, day dir, file name). -/
structure TargetFS where
  tripDirs : List (String × String)
  links : List ((String × String) × String × (String × String × String))
deriving DecidableEq, Repr

/-- `parse_date` (line 72-73): `strptime "%Y-%m-%d"` then `.date()`. -/
def parse_date (s : String) : Option PyDateTime :=
  match parseYear4 s.data with
  | none => none
  | some (y, l) =>
    match expectC '-' l with
    | none => none
    | some l =>
      match parseMonth l with
      | none => none
      | some (mo, l) =>
        match expectC '-' l with
        | none => none
        | some l =>
          match parseDay l with
          | none => none
          | some (d, l) =>
            if l = [] then
              if dtValid ⟨y, mo, d, 0, 0, 0⟩ then some ⟨y, mo, d, 0, 0, 0⟩
              else none
            else none

/-- Python `date` comparison (lexicographic on year, month, day). -/
def dateLE (a b : PyDateTime) : Bool :=
  decide (a.year < b.year ∨ (a.year = b.year ∧
    (a.month < b.month ∨ (a.month = b.month ∧ a.day ≤ b.day))))

/-- Regex `^\d{4}$` on a directory name. -/
def yearRegex (s : String) : Bool :=
  decide (s.data.length = 4) && s.data.all Char.isDigit

/-- Regex `^\d{4}-\d{2}-\d{2}$` on a directory name. -/
def dayRegex (s : String) : Bool :=
  match s.data with
  | [a, b, c, d, e, f, g, h, i, j] =>
    a.isDigit && b.isDigit && c.isDigit && d.isDigit && decide (e = '-') &&
      f.isDigit && g.isDigit && decide (h = '-') && i.isDigit && j.isDigit
  | _ => false

/-- `trip_name.replace("/", "_").replace("\\", "_")` (line 186). -/
def sanitizeTripName (s : String) : String :=
  ⟨s.data.map (fun c => if c = '/' ∨ c = '\\' then '_' else c)⟩

/-- `start_date_str[:4]` (line 187). -/
def strTake4 (s : String) : String := ⟨s.data.take 4⟩

/-- `symlink_path_in_trip_dir.exists() or symlink_path_in_trip_dir.is_symlink()`. -/
def linkNameTaken (ts : TargetFS) (dir : String × String) (nm : String) : Bool :=
  ts.links.any (fun e => decide (e.1 = dir ∧ e.2.1 = nm))

/-- Per-photo step (lines 209-229): link regular non-symlink files whose
basename is not already taken; symlink errors are caught and skipped. -/
def photoStep (w : TripWorld) (dry : Bool) (dir : String × String)
    (yr dayNm : String) (ts : TargetFS) (p : PhotoEntry) : TargetFS :=
  if p.regular && !p.isLink then
    if linkNameTaken ts dir p.name then ts
    else if dry then ts
    else if (yr, dayNm, p.name) ∈ w.linkFails then ts
    else { ts with links := ts.links ++ [(dir, p.name, (yr, dayNm, p.name))] }
  else ts

/-- Per-day-directory step (lines 204-229): regex filter, `parse_date` on
the directory name (an invalid name raises), date-range test. -/
def dayStep (w : TripWorld) (dry : Bool) (dir : String × String)
    (startD endD : PyDateTime) (yr : String) (ts : TargetFS) (d : DayEntry) :
    Except TripErr TargetFS :=
  if d.isDir && dayRegex d.name then
    match parse_date d.name with
    | none => .error .valueError
    | some pd =>
      if dateLE startD pd && dateLE pd endD then
        .ok (d.photos.foldl (photoStep w dry dir yr d.name) ts)
      else .ok ts
  else .ok ts

/-- Per-year-directory step (lines 201-203). -/
def yearStep (w : TripWorld) (dry : Bool) (dir : String × String)
    (startD endD : PyDateTime) (ts : TargetFS) (y : YearEntry) :
    Except TripErr TargetFS :=
  if y.isDir && yearRegex y.name then
    y.days.foldlM (fun ts d => dayStep w dry dir startD endD y.name ts d) ts
  else .ok ts

/-- The trip directory `(start_date_str[:4], sanitized trip name)` of
lines 186-188. -/
def tripDirOf (trip : TripEntry) : String × String :=
  (strTake4 trip.startDate, sanitizeTripName trip.name)

/-- Per-trip step (lines 179-231): parse the range (raising on a bad
date), build `target/YYYY/<sanitized-name>`, create it unless dry-run (a
failure skips the trip), then scan the source tree. -/
def tripStep (w : TripWorld) (tree : List YearEntry) (dry : Bool)
    (ts : TargetFS) (trip : TripEntry) : Except TripErr TargetFS :=
  match parse_date trip.startDate, parse_date trip.endDate with
  | some sd, some ed =>
    if dry then tree.foldlM (yearStep w dry (tripDirOf trip) sd ed) ts
    else if tripDirOf trip ∈ w.tripMkdirFails then .ok ts
    else if tripDirOf trip ∈ ts.tripDirs then
      tree.foldlM (yearStep w dry (tripDirOf trip) sd ed) ts
    else
      tree.foldlM (yearStep w dry (tripDirOf trip) sd ed)
        { ts with tripDirs := ts.tripDirs ++ [tripDirOf trip] }
  | _, _ => .error .valueError

/-- Model of `process_trips_from_config_dict` (lines 157-231). -/
def process_trips_from_config_dict (trips : List TripEntry) (w : TripWorld)
    (tree : List YearEntry) (dry : Bool) (ts0 : TargetFS) :
    Except TripErr TargetFS :=
  if ¬ dry ∧ ¬ w.rootMkdirOk then .error .sysExit
  else trips.foldlM (tripStep w tree dry) ts0

/-- A day directory passes the regex filter and its date lies in the
trip's inclusive range. -/
def dayMatches (sd ed : PyDateTime) (d : DayEntry) : Bool :=
  d.isDir && dayRegex d.name &&
    (match parse_date d.name with
     | some pd => dateLE sd pd && dateLE pd ed
     | none => false)

/-- The link entries the run would create for the regular non-symlink
files of one day directory. -/
def photoLinks (dir : String × String) (yr dayNm : String)
    (photos : List PhotoEntry) :
    List ((String × String) × String × (String × String × String)) :=
  (photos.filter (fun p => p.regular && !p.isLink)).map
    (fun p => (dir, p.name, (yr, dayNm, p.name)))

/-- Link entries contributed by one day directory of a year directory. -/
def dayLinks (dir : String × String) (sd ed : PyDateTime) (yr : String)
    (d : DayEntry) :
    List ((String × String) × String × (String × String × String)) :=
  if dayMatches sd ed d then photoLinks dir yr d.name d.photos else []

/-- Link entries contributed by one entry of the source root. -/
def yearLinks (dir : String × String) (sd ed : PyDateTime) (y : YearEntry) :
    List ((String × String) × String × (String × String × String)) :=
  if y.isDir && yearRegex y.name then y.days.bind (dayLinks dir sd ed y.name)
  else []

/-- All link entries one trip contributes over the whole source tree. -/
def treeLinks (dir : String × String) (sd ed : PyDateTime)
    (tree : List YearEntry) :
    List ((String × String) × String × (String × String × String)) :=
  tree.bind (yearLinks dir sd ed)

end TripHistory

theorem decVal_append_singleton (l : List Char) (c : Char) :
    decVal (l ++ [c]) = 10 * decVal l + digitVal c := by
  simp [decVal, List.foldl_append]

theorem digitVal_digitChar {d : Nat} (h : d < 10) :
    digitVal (Nat.digitChar d) = d := by
  interval_cases d <;> rfl

theorem toDigitsCore_append (b : Nat) :
    ∀ (f n : Nat) (ds : List Char),
      Nat.toDigitsCore b f n ds = Nat.toDigitsCore b f n [] ++ ds := by
  intro f
  induction f with
  | zero => intro n ds; simp [Nat.toDigitsCore]
  | succ f ih =>
    intro n ds
    simp only [Nat.toDigitsCore]
    by_cases h : n / b = 0
    · simp [h]
    · simp only [h, if_false]
      rw [ih (n / b) (Nat.digitChar (n % b) :: ds),
          ih (n / b) [Nat.digitChar (n % b)]]
      simp

theorem decVal_toDigitsCore :
    ∀ n : Nat, ∀ f : Nat, n < f → decVal (Nat.toDigitsCore 10 f n []) = n := by
  intro n
  induction n using Nat.strong_induction_on with
  | _ n ih =>
    intro f hf
    match f, hf with
    | f + 1, _ =>
      simp only [Nat.toDigitsCore]
      by_cases h : n / 10 = 0
      · have hn : n < 10 := by omega
        simp [h, decVal, Nat.mod_eq_of_lt hn, digitVal_digitChar hn]
      · simp only [h, if_false]
        rw [toDigitsCore_append 10 f (n / 10) [Nat.digitChar (n % 10)],
          decVal_append_singleton,
          ih (n / 10) (by omega) f (by omega),
          digitVal_digitChar (Nat.mod_lt n (by omega))]
        omega

theorem decVal_toDigits (n : Nat) : decVal (Nat.toDigits 10 n) = n := by
  simpa [Nat.toDigits] using decVal_toDigitsCore n (n + 1) (Nat.lt_succ_self n)

theorem repr_injective : Function.Injective Nat.repr := by
  intro m n h
  have hd : Nat.toDigits 10 m = Nat.toDigits 10 n := by
    have := congrArg String.data h
    simpa [Nat.repr, List.asString] using this
  have := congrArg decVal hd
  simpa [decVal_toDigits] using this

theorem toDigitsCore_length_ge (b : Nat) :
    ∀ (f n : Nat) (ds : List Char),
      ds.length ≤ (Nat.toDigitsCore b f n ds).length := by
  intro f
  induction f with
  | zero => intro n ds; simp [Nat.toDigitsCore]
  | succ f ih =>
    intro n ds
    simp only [Nat.toDigitsCore]
    by_cases h : n / b = 0
    · simp [h]
    · simp only [h, if_false]
      have := ih (n / b) (Nat.digitChar (n % b) :: ds)
      simp only [List.length_cons] at this
      omega

theorem toDigits_ne_nil (n : Nat) : Nat.toDigits 10 n ≠ [] := by
  unfold Nat.toDigits
  simp only [Nat.toDigitsCore]
  by_cases h : n / 10 = 0
  · simp [h]
  · simp only [h, if_false]
    intro hc
    have := toDigitsCore_length_ge 10 n (n / 10) [Nat.digitChar (n % 10)]
    rw [hc] at this
    simp at this

theorem repr_length_pos (n : Nat) : 0 < (Nat.repr n).length := by
  have h := toDigits_ne_nil n
  simp only [Nat.repr, List.asString]
  cases hc : Nat.toDigits 10 n with
  | nil => exact absurd hc h
  | cons a l => simp [String.length, hc]

/-! ### Calendar lemmas -/

theorem daysInMonth_pos {y m : Nat} (h1 : 1 ≤ m) (h2 : m ≤ 12) :
    1 ≤ daysInMonth y m := by
  interval_cases m <;> simp [daysInMonth] <;> split <;> omega

theorem daysInMonth_le {y m : Nat} : daysInMonth y m ≤ 31 := by
  unfold daysInMonth
  split <;> first | omega | (split <;> omega)

theorem daysBeforeMonth_thirteen (y : Nat) :
    daysBeforeMonth y 13 = daysInYear y := by
  by_cases h : isLeap y <;>
    simp [show (13 : Nat) = 12 + 1 from rfl, show (12 : Nat) = 11 + 1 from rfl,
      show (11 : Nat) = 10 + 1 from rfl, show (10 : Nat) = 9 + 1 from rfl,
      daysBeforeMonth, daysInMonth, daysInYear, h]

theorem daysBeforeMonth_mono (y : Nat) {m m' : Nat} (h : m ≤ m') :
    daysBeforeMonth y m ≤ daysBeforeMonth y m' := by
  induction m' with
  | zero => simp_all
  | succ k ih =>
    rcases Nat.lt_or_ge m (k + 1) with hlt | hge
    · calc daysBeforeMonth y m ≤ daysBeforeMonth y k := ih (by omega)
        _ ≤ _ := by simp [daysBeforeMonth]
    · have : m = k + 1 := by omega
      simp [this]

theorem daysInYear_ge (y : Nat) : 365 ≤ daysInYear y := by
  unfold daysInYear; split <;> omega

theorem daysBeforeYear_succ {y : Nat} (h : 1 ≤ y) :
    daysBeforeYear (y + 1) = daysBeforeYear y + daysInYear y := by
  obtain ⟨k, rfl⟩ : ∃ k, y = k + 1 := ⟨y - 1, by omega⟩
  rfl

theorem daysBeforeYear_mono {y y' : Nat} (h : y ≤ y') :
    daysBeforeYear y ≤ daysBeforeYear y' := by
  induction y' with
  | zero => simp_all
  | succ k ih =>
    rcases Nat.lt_or_ge y (k + 1) with hlt | hge
    · rcases Nat.eq_zero_or_pos k with rfl | hk
      · interval_cases y <;> simp [daysBeforeYear]
      · calc daysBeforeYear y ≤ daysBeforeYear k := ih (by omega)
          _ ≤ _ := by rw [daysBeforeYear_succ hk]; omega
    · have : y = k + 1 := by omega
      simp [this]

/-- Largest representable ordinal day (9999-12-31). -/
theorem absDay_le_of_year {t : PyDateTime} (hv : dtValid t)
    (hy : t.year ≤ 9998) : absDay t + 300 ≤ maxAbsDay := by
  obtain ⟨h1, h2, h3, h4, h5, h6, _⟩ := hv
  have hbm : daysBeforeMonth t.year t.month + t.day ≤ daysInYear t.year := by
    calc daysBeforeMonth t.year t.month + t.day
        ≤ daysBeforeMonth t.year t.month + daysInMonth t.year t.month := by omega
      _ = daysBeforeMonth t.year (t.month + 1) := rfl
      _ ≤ daysBeforeMonth t.year 13 := daysBeforeMonth_mono _ (by omega)
      _ = daysInYear t.year := daysBeforeMonth_thirteen _
  have e1 : daysBeforeYear (t.year + 1) = daysBeforeYear t.year + daysInYear t.year :=
    daysBeforeYear_succ (by omega)
  have e5 : daysBeforeYear (t.year + 1) ≤ daysBeforeYear 9999 :=
    daysBeforeYear_mono (by omega)
  have hbm12 : 334 ≤ daysBeforeMonth 9999 12 := by
    norm_num [show (12 : Nat) = 11 + 1 from rfl, show (11 : Nat) = 10 + 1 from rfl,
      show (10 : Nat) = 9 + 1 from rfl, daysBeforeMonth, daysInMonth, isLeap]
  unfold maxAbsDay absDay
  omega

theorem absDay_ge_of_year {t : PyDateTime} (hv : dtValid t)
    (hy : 2 ≤ t.year) : 300 < absDay t := by
  obtain ⟨h1, h2, h3, h4, h5, h6, _⟩ := hv
  have : daysBeforeYear 2 ≤ daysBeforeYear t.year := daysBeforeYear_mono hy
  have : daysBeforeYear 2 = 365 := by norm_num [daysBeforeYear, daysInYear, isLeap]
  unfold absDay
  omega

theorem nextDate_spec {t t' : PyDateTime} (hv : dtValid t)
    (h : nextDate t = some t') :
    dtValid t' ∧ absDay t' = absDay t + 1 ∧ timeOfDaySec t' = timeOfDaySec t ∧
      t'.hour = t.hour ∧ t'.minute = t.minute ∧ t'.second = t.second := by
  obtain ⟨h1, h2, h3, h4, h5, h6, h7, h8, h9⟩ := hv
  unfold nextDate at h
  split_ifs at h with c1 c2 c3 <;> injection h with h <;> subst h
  · refine ⟨?_, ?_, rfl, rfl, rfl, rfl⟩ <;> simp only [dtValid, absDay] <;> omega
  · have hp := @daysInMonth_pos t.year (t.month + 1) (by omega) (by omega)
    have e : daysBeforeMonth t.year (t.month + 1) =
        daysBeforeMonth t.year t.month + daysInMonth t.year t.month := rfl
    refine ⟨?_, ?_, rfl, rfl, rfl, rfl⟩ <;> simp only [dtValid, absDay] <;> omega
  · have hm : t.month = 12 := by omega
    have e1 : daysBeforeYear (t.year + 1) = daysBeforeYear t.year + daysInYear t.year :=
      daysBeforeYear_succ (by omega)
    have e2 : daysBeforeMonth t.year 13 =
        daysBeforeMonth t.year 12 + daysInMonth t.year 12 := rfl
    have e2' := daysBeforeMonth_thirteen t.year
    have e3 : daysBeforeMonth (t.year + 1) 1 = 0 := rfl
    have e4 : daysInMonth (t.year + 1) 1 = 31 := rfl
    rw [hm] at c1 h6
    refine ⟨?_, ?_, rfl, rfl, rfl, rfl⟩ <;> simp only [dtValid, absDay, hm] <;> omega

theorem prevDate_spec {t t' : PyDateTime} (hv : dtValid t)
    (h : prevDate t = some t') :
    dtValid t' ∧ absDay t' + 1 = absDay t ∧ timeOfDaySec t' = timeOfDaySec t ∧
      t'.hour = t.hour ∧ t'.minute = t.minute ∧ t'.second = t.second := by
  obtain ⟨h1, h2, h3, h4, h5, h6, h7, h8, h9⟩ := hv
  unfold prevDate at h
  split_ifs at h with c1 c2 c3 <;> injection h with h <;> subst h
  · refine ⟨?_, ?_, rfl, rfl, rfl, rfl⟩ <;> simp only [dtValid, absDay] <;> omega
  · have hd : t.day = 1 := by omega
    have hp := @daysInMonth_pos t.year (t.month - 1) (by omega) (by omega)
    have hle := @daysInMonth_le t.year (t.month - 1)
    have e : daysBeforeMonth t.year (t.month - 1 + 1) =
        daysBeforeMonth t.year (t.month - 1) + daysInMonth t.year (t.month - 1) := rfl
    have hmm : t.month - 1 + 1 = t.month := by omega
    rw [hmm] at e
    refine ⟨?_, ?_, rfl, rfl, rfl, rfl⟩ <;> simp only [dtValid, absDay] <;> omega
  · have hd : t.day = 1 := by omega
    have hm : t.month = 1 := by omega
    have e1 : daysBeforeYear (t.year - 1 + 1) =
        daysBeforeYear (t.year - 1) + daysInYear (t.year - 1) :=
      daysBeforeYear_succ (by omega)
    have hyy : t.year - 1 + 1 = t.year := by omega
    rw [hyy] at e1
    have e2 : daysBeforeMonth (t.year - 1) 13 =
        daysBeforeMonth (t.year - 1) 12 + daysInMonth (t.year - 1) 12 := rfl
    have e2' := daysBeforeMonth_thirteen (t.year - 1)
    have e3 : daysBeforeMonth t.year 1 = 0 := rfl
    have e4 : daysInMonth (t.year - 1) 12 = 31 := rfl
    have e5 : daysInMonth (t.year - 1) 12 ≤ 31 := daysInMonth_le
    rw [hm] at h6
    refine ⟨?_, ?_, rfl, rfl, rfl, rfl⟩ <;> simp only [dtValid, absDay, hm] <;> omega

theorem shiftDaysBy_spec :
    ∀ (n : Nat) (t t' : PyDateTime) (up : Bool), dtValid t →
      shiftDaysBy t up n = some t' →
      dtValid t' ∧
        (absDay t' : Int) = absDay t + (if up then (n : Int) else -(n : Int)) ∧
        t'.hour = t.hour ∧ t'.minute = t.minute ∧ t'.second = t.second := by
  intro n
  induction n with
  | zero =>
    intro t t' up hv h
    unfold shiftDaysBy at h
    cases up <;> (injection h with h; subst h; exact ⟨hv, by simp, rfl, rfl, rfl⟩)
  | succ n ih =>
    intro t t' up hv h
    cases up with
    | true =>
      unfold shiftDaysBy at h
      cases hs : nextDate t with
      | none => rw [hs] at h; exact absurd h (by simp)
      | some u =>
        rw [hs] at h
        obtain ⟨hu, ha, htod, hhr, hmin, hsec⟩ := nextDate_spec hv hs
        obtain ⟨hv', ha', hh', hm', hs'⟩ := ih u t' true hu h
        refine ⟨hv', ?_, by rw [hh', hhr], by rw [hm', hmin], by rw [hs', hsec]⟩
        rw [if_pos rfl] at ha' ⊢
        push_cast
        push_cast at ha'
        omega
    | false =>
      unfold shiftDaysBy at h
      cases hs : prevDate t with
      | none => rw [hs] at h; exact absurd h (by simp)
      | some u =>
        rw [hs] at h
        obtain ⟨hu, ha, htod, hhr, hmin, hsec⟩ := prevDate_spec hv hs
        obtain ⟨hv', ha', hh', hm', hs'⟩ := ih u t' false hu h
        refine ⟨hv', ?_, by rw [hh', hhr], by rw [hm', hmin], by rw [hs', hsec]⟩
        rw [if_neg (by simp)] at ha' ⊢
        push_cast
        push_cast at ha'
        omega

/-- The only date `nextDate` refuses is 9999-12-31. -/
theorem nextDate_isSome {t : PyDateTime} (hv : dtValid t)
    (h : absDay t < maxAbsDay) : (nextDate t).isSome := by
  obtain ⟨h1, h2, h3, h4, h5, h6, _⟩ := hv
  unfold nextDate
  split_ifs with c1 c2 c3 <;> try simp
  exfalso
  have hy : t.year = 9999 := by omega
  have hm : t.month = 12 := by omega
  have hd : t.day = daysInMonth t.year t.month := by omega
  rw [hy, hm] at hd
  have : daysInMonth 9999 12 = 31 := rfl
  rw [this] at hd
  unfold absDay maxAbsDay at h
  rw [hy, hm, hd] at h
  omega

/-- The only date `prevDate` refuses is 0001-01-01, whose ordinal is 1. -/
theorem prevDate_isSome {t : PyDateTime} (hv : dtValid t)
    (h : 1 < absDay t) : (prevDate t).isSome := by
  obtain ⟨h1, h2, h3, h4, h5, h6, _⟩ := hv
  unfold prevDate
  split_ifs with c1 c2 c3 <;> try simp
  exfalso
  have hy : t.year = 1 := by omega
  have hm : t.month = 1 := by omega
  have hd : t.day = 1 := by omega
  unfold absDay at h
  rw [hy, hm, hd] at h
  have e1 : daysBeforeYear 1 = 0 := rfl
  have e2 : daysBeforeMonth 1 1 = 0 := rfl
  omega

theorem shiftDaysBy_up_isSome :
    ∀ (n : Nat) (t : PyDateTime), dtValid t → absDay t + n ≤ maxAbsDay →
      (shiftDaysBy t true n).isSome := by
  intro n
  induction n with
  | zero => intro t _ _; simp [shiftDaysBy]
  | succ n ih =>
    intro t hv hb
    unfold shiftDaysBy
    cases hs : nextDate t with
    | none =>
      have := nextDate_isSome hv (by omega)
      rw [hs] at this
      simp at this
    | some u =>
      obtain ⟨hu, ha, _⟩ := nextDate_spec hv hs
      exact ih u hu (by omega)

theorem shiftDaysBy_down_isSome :
    ∀ (n : Nat) (t : PyDateTime), dtValid t → n + 1 < absDay t →
      (shiftDaysBy t false n).isSome := by
  intro n
  induction n with
  | zero => intro t _ _; simp [shiftDaysBy]
  | succ n ih =>
    intro t hv hb
    unfold shiftDaysBy
    cases hs : prevDate t with
    | none =>
      have := prevDate_isSome hv (by omega)
      rw [hs] at this
      simp at this
    | some u =>
      obtain ⟨hu, ha, _⟩ := prevDate_spec hv hs
      exact ih u hu (by omega)

theorem timeOfDaySec_lt {t : PyDateTime} (hv : dtValid t) :
    timeOfDaySec t < 86400 := by
  obtain ⟨_, _, _, _, _, _, h7, h8, h9⟩ := hv
  unfold timeOfDaySec
  omega

theorem subMinutes_spec {t u : PyDateTime} {delta : Int} (hv : dtValid t)
    (h : subMinutes t delta = some u) :
    dtValid u ∧ absSec u = absSec t - delta * 60 := by
  unfold subMinutes at h
  set tot : Int := (timeOfDaySec t : Int) - delta * 60 with htot
  cases hs : shiftDaysBy t (decide (0 ≤ tot / 86400)) (tot / 86400).natAbs with
  | none => rw [hs] at h; exact absurd h (by simp)
  | some d =>
    rw [hs] at h
    simp only [Option.map_some'] at h
    obtain ⟨hd, ha, hhr, hmin, hsec⟩ :=
      shiftDaysBy_spec (tot / 86400).natAbs t d (decide (0 ≤ tot / 86400)) hv hs
    have hqd : (absDay d : Int) = absDay t + tot / 86400 := by
      rcases Int.le_or_lt 0 (tot / 86400) with hle | hlt
      · rw [ha]
        simp [decide_eq_true hle, Int.natAbs_of_nonneg hle]
      · have hdec : decide (0 ≤ tot / 86400) = false := by simp; omega
        rw [hdec] at ha
        rw [ha]
        simp only [Bool.false_eq_true, if_false]
        omega
    have hrlt : (tot % 86400).toNat < 86400 := by omega
    injection h with h
    subst h
    obtain ⟨hd1, hd2, hd3, hd4, hd5, hd6, _⟩ := hd
    constructor
    · refine ⟨hd1, hd2, hd3, hd4, hd5, hd6, ?_, ?_, ?_⟩ <;>
        simp only [withTimeOfDay] <;> omega
    · have htod : (timeOfDaySec (withTimeOfDay d ((tot % 86400).toNat)) : Int) =
          tot % 86400 := by
        simp only [timeOfDaySec, withTimeOfDay]
        push_cast
        omega
      have habs : absDay (withTimeOfDay d ((tot % 86400).toNat)) = absDay d := by
        simp [absDay, withTimeOfDay]
      unfold absSec
      rw [htod, habs, hqd]
      have hde := Int.ediv_add_emod tot 86400
      have : (timeOfDaySec t : Int) = tot + delta * 60 := by rw [htot]; ring
      rw [this]
      ring_nf
      omega

/-- With a delta below about four days and a start year strictly inside the
representable range, the subtraction cannot overflow. -/
theorem subMinutes_isSome {t : PyDateTime} {delta : Int} (hv : dtValid t)
    (h2 : 2 ≤ t.year) (h8 : t.year ≤ 9998) (hd : delta.natAbs ≤ 6100) :
    (subMinutes t delta).isSome := by
  have htlt := timeOfDaySec_lt hv
  have hdle : (delta.natAbs : Int) ≤ 6100 := by exact_mod_cast hd
  unfold subMinutes
  set q : Int := ((timeOfDaySec t : Int) - delta * 60) / 86400 with hq
  have hqb : -5 ≤ q ∧ q ≤ 5 := by rw [hq]; constructor <;> omega
  have hna : q.natAbs ≤ 5 := by omega
  rcases Int.le_or_lt 0 q with hle | hlt
  · have hdec : decide (0 ≤ q) = true := decide_eq_true hle
    rw [hdec]
    have := absDay_le_of_year hv h8
    have hs := shiftDaysBy_up_isSome q.natAbs t hv (by omega)
    cases hres : shiftDaysBy t true q.natAbs with
    | none => rw [hres] at hs; simp at hs
    | some d => simp [hres]
  · have hdec : decide (0 ≤ q) = false := by simp; omega
    rw [hdec]
    have := absDay_ge_of_year hv h2
    have hs := shiftDaysBy_down_isSome q.natAbs t hv (by omega)
    cases hres : shiftDaysBy t false q.natAbs with
    | none => rw [hres] at hs; simp at hs
    | some d => simp [hres]

/-- Subtracting zero minutes from a valid datetime is the identity — the
branch the code takes when the offset is missing or blanked to `"00:00"`. -/
theorem subMinutes_zero {t : PyDateTime} (hv : dtValid t) :
    subMinutes t 0 = some t := by
  have hlt := timeOfDaySec_lt hv
  obtain ⟨h1, h2, h3, h4, h5, h6, h7, h8, h9⟩ := hv
  unfold subMinutes
  have htod : (timeOfDaySec t : Int) - 0 * 60 = (timeOfDaySec t : Int) := by ring
  rw [htod]
  have hqe : (timeOfDaySec t : Int) / 86400 = 0 := by omega
  have hre : (timeOfDaySec t : Int) % 86400 = (timeOfDaySec t : Int) := by omega
  rw [hqe, hre]
  simp only [Int.natAbs_zero, shiftDaysBy, decide_eq_true (le_refl (0 : Int)),
    Option.map_some']
  have htn : ((timeOfDaySec t : Int)).toNat = timeOfDaySec t := Int.toNat_natCast _
  rw [htn]
  congr 1
  obtain ⟨y, mo, dd, hr, mi, s⟩ := t
  simp only [timeOfDaySec] at hlt
  dsimp only at h8 h9 hlt
  simp only [withTimeOfDay, timeOfDaySec, PyDateTime.mk.injEq, true_and]
  refine ⟨?_, ?_, ?_⟩ <;> omega

/-! ### Digit-string and parser lemmas -/

theorem toDigitsCore_fuel :
    ∀ n : Nat, ∀ f f' : Nat, n < f → n < f' →
      Nat.toDigitsCore 10 f n [] = Nat.toDigitsCore 10 f' n [] := by
  intro n
  induction n using Nat.strong_induction_on with
  | _ n ih =>
    intro f f' hf hf'
    match f, hf, f', hf' with
    | f + 1, _, f' + 1, _ =>
      simp only [Nat.toDigitsCore]
      by_cases h : n / 10 = 0
      · simp [h]
      · simp only [h, if_false]
        rw [toDigitsCore_append 10 f (n / 10), toDigitsCore_append 10 f' (n / 10),
          ih (n / 10) (by omega) f f' (by omega) (by omega)]

theorem toDigits_step {n : Nat} (h : 10 ≤ n) :
    Nat.toDigits 10 n = Nat.toDigits 10 (n / 10) ++ [Nat.digitChar (n % 10)] := by
  unfold Nat.toDigits
  conv_lhs => simp only [Nat.toDigitsCore]
  have h10 : ¬(n / 10 = 0) := by omega
  simp only [h10, if_false]
  rw [toDigitsCore_append 10 n (n / 10)]
  congr 1
  exact toDigitsCore_fuel (n / 10) n (n / 10 + 1) (by omega) (by omega)

theorem toDigits_small {n : Nat} (h : n < 10) :
    Nat.toDigits 10 n = [Nat.digitChar n] := by
  unfold Nat.toDigits
  simp only [Nat.toDigitsCore]
  have h0 : n / 10 = 0 := by omega
  simp [h0, Nat.mod_eq_of_lt h]

theorem repr_data_small {n : Nat} (h : n < 10) :
    (Nat.repr n).data = [Nat.digitChar n] := by
  simp [Nat.repr, List.asString, toDigits_small h]

theorem repr_data_two {n : Nat} (h1 : 10 ≤ n) (h2 : n ≤ 99) :
    (Nat.repr n).data = [Nat.digitChar (n / 10), Nat.digitChar (n % 10)] := by
  simp only [Nat.repr, List.asString]
  rw [toDigits_step h1, toDigits_small (by omega)]
  rfl

theorem repr_data_four {y : Nat} (h1 : 1000 ≤ y) (h2 : y ≤ 9999) :
    (Nat.repr y).data = [Nat.digitChar (y / 1000), Nat.digitChar (y / 100 % 10),
      Nat.digitChar (y / 10 % 10), Nat.digitChar (y % 10)] := by
  simp only [Nat.repr, List.asString]
  rw [toDigits_step (by omega)]
  rw [@toDigits_step (y / 10) (by omega)]
  rw [@toDigits_step (y / 10 / 10) (by omega)]
  rw [@toDigits_small (y / 10 / 10 / 10) (by omega)]
  have e1 : y / 10 / 10 / 10 = y / 1000 := by omega
  have e2 : y / 10 / 10 % 10 = y / 100 % 10 := by omega
  rw [e1, e2]
  rfl

theorem pad2_data_small {n : Nat} (h : n < 10) :
    (pad2 n).data = ['0', Nat.digitChar n] := by
  unfold pad2
  rw [if_pos h]
  rw [String.data_append, repr_data_small h]
  rfl

theorem pad2_data_large {n : Nat} (h1 : 10 ≤ n) (h2 : n ≤ 99) :
    (pad2 n).data = [Nat.digitChar (n / 10), Nat.digitChar (n % 10)] := by
  unfold pad2
  rw [if_neg (by omega)]
  exact repr_data_two h1 h2

theorem digitChar_isDigit {k : Nat} (h : k < 10) :
    (Nat.digitChar k).isDigit = true := by
  interval_cases k <;> rfl

theorem digitChar_ne_dash {k : Nat} (h : k < 10) : Nat.digitChar k ≠ '-' := by
  interval_cases k <;> decide

theorem digitChar_ne_colon {k : Nat} (h : k < 10) : Nat.digitChar k ≠ ':' := by
  interval_cases k <;> decide

theorem digitChar_not_ws {k : Nat} (h : k < 10) :
    (Nat.digitChar k).isWhitespace = false := by
  interval_cases k <;> rfl

theorem parseYear4_repr {y : Nat} (h1 : 1000 ≤ y) (h2 : y ≤ 9999)
    (rest : List Char) :
    parseYear4 ((Nat.repr y).data ++ rest) = some (y, rest) := by
  rw [repr_data_four h1 h2]
  have d1 : y / 1000 < 10 := by omega
  have d2 : y / 100 % 10 < 10 := by omega
  have d3 : y / 10 % 10 < 10 := by omega
  have d4 : y % 10 < 10 := by omega
  simp only [List.cons_append, List.nil_append, parseYear4,
    digitChar_isDigit d1, digitChar_isDigit d2, digitChar_isDigit d3,
    digitChar_isDigit d4, digitVal_digitChar d1, digitVal_digitChar d2,
    digitVal_digitChar d3, digitVal_digitChar d4, true_and, and_self, if_true]
  simp only [Option.some.injEq, Prod.mk.injEq, and_true]
  omega

theorem parseMonth_pad2 {mo : Nat} (h1 : 1 ≤ mo) (h2 : mo ≤ 12)
    (rest : List Char) :
    parseMonth ((pad2 mo).data ++ rest) = some (mo, rest) := by
  interval_cases mo <;> rfl

theorem parseDay_pad2 {d : Nat} (h1 : 1 ≤ d) (h2 : d ≤ 31) (rest : List Char) :
    parseDay ((pad2 d).data ++ rest) = some (d, rest) := by
  interval_cases d <;> rfl

theorem parseHour_pad2 {h : Nat} (h2 : h ≤ 23) (rest : List Char) :
    parseHour ((pad2 h).data ++ rest) = some (h, rest) := by
  interval_cases h <;> rfl

theorem parseMinute_pad2 {m : Nat} (h2 : m ≤ 59) (rest : List Char) :
    parseMinute ((pad2 m).data ++ rest) = some (m, rest) := by
  interval_cases m <;> rfl

theorem parseSecond_pad2 {sec : Nat} (h2 : sec ≤ 59) (rest : List Char) :
    parseSecond ((pad2 sec).data ++ rest) = some (sec, rest) := by
  interval_cases sec <;> rfl

theorem parseSecond_pad2_nil {sec : Nat} (h2 : sec ≤ 59) :
    parseSecond (pad2 sec).data = some (sec, []) := by
  have h := parseSecond_pad2 h2 []
  rwa [List.append_nil] at h

theorem fmtNoTz_data (t : PyDateTime) :
    (fmtNoTz t).data = (Nat.repr t.year).data ++ '-' :: ((pad2 t.month).data ++
      '-' :: ((pad2 t.day).data ++ ' ' :: ((pad2 t.hour).data ++
        ':' :: ((pad2 t.minute).data ++ ':' :: (pad2 t.second).data)))) := by
  simp only [fmtNoTz, String.data_append,
    show ("-" : String).data = ['-'] from rfl,
    show (" " : String).data = [' '] from rfl,
    show (":" : String).data = [':'] from rfl]
  simp [List.append_assoc]

theorem expectC_cons (c : Char) (l : List Char) : expectC c (c :: l) = some l := by
  simp [expectC]

theorem pyStrptime6_fmt {t : PyDateTime} (hv : dtValid t) (hy : 1000 ≤ t.year) :
    pyStrptime6 '-' (fmtNoTz t).data = some t := by
  obtain ⟨h1, h2, h3, h4, h5, h6, h7, h8, h9⟩ := hv
  have hd31 : t.day ≤ 31 := le_trans h6 daysInMonth_le
  unfold pyStrptime6
  rw [fmtNoTz_data, parseYear4_repr hy h2]
  dsimp only
  rw [expectC_cons]
  dsimp only
  rw [parseMonth_pad2 h3 h4]
  dsimp only
  rw [expectC_cons]
  dsimp only
  rw [parseDay_pad2 h5 hd31]
  dsimp only
  rw [expectC_cons]
  dsimp only
  rw [parseHour_pad2 h7]
  dsimp only
  rw [expectC_cons]
  dsimp only
  rw [parseMinute_pad2 h8]
  dsimp only
  rw [expectC_cons]
  dsimp only
  rw [parseSecond_pad2_nil h9]
  dsimp only
  have hvv : dtValid ⟨t.year, t.month, t.day, t.hour, t.minute, t.second⟩ :=
    ⟨h1, h2, h3, h4, h5, h6, h7, h8, h9⟩
  rw [if_pos rfl, if_pos hvv]

theorem expectC_ne {c a : Char} (h : a ≠ c) (l : List Char) :
    expectC c (a :: l) = none := by
  simp [expectC, h]

theorem pyStrptime6_valid {sep : Char} {l : List Char} {t : PyDateTime}
    (h : pyStrptime6 sep l = some t) : dtValid t := by
  unfold pyStrptime6 at h
  repeat' split at h
  all_goals first
  | (injection h with h; subst h; assumption)
  | injection h

theorem parseOriginalDT_valid {s : String} {t : PyDateTime}
    (h : parseOriginalDT s = some t) : dtValid t := by
  unfold parseOriginalDT at h
  split at h
  · injection h with h
    subst h
    exact pyStrptime6_valid (by assumption)
  · exact pyStrptime6_valid h

theorem parseOriginalDT_fmt {t : PyDateTime} (hv : dtValid t)
    (hy : 1000 ≤ t.year) : parseOriginalDT (fmtNoTz t) = some t := by
  have hcolon : pyStrptime6 ':' (fmtNoTz t).data = none := by
    obtain ⟨h1, h2, _⟩ := hv
    unfold pyStrptime6
    rw [fmtNoTz_data, parseYear4_repr hy h2]
    dsimp only
    rw [expectC_ne (by decide)]
  unfold parseOriginalDT
  rw [hcolon]
  exact pyStrptime6_fmt hv hy

/-! ### `UTC_from_exif` computation lemmas -/

theorem UTC_from_exif_parse_fail {s off : String}
    (h : parseOriginalDT s = none) :
    UTC_from_exif s off = fmtNoTz epochDT := by
  unfold UTC_from_exif
  rw [h]

theorem UTC_from_exif_offset_fail {s off : String} {dt : PyDateTime}
    (h : parseOriginalDT s = some dt) (hne : off ≠ "")
    (ho : parseOffsetPair off = none) :
    UTC_from_exif s off = fmtNoTz epochDT := by
  unfold UTC_from_exif
  rw [h]
  dsimp only
  rw [if_neg hne, ho]

theorem UTC_from_exif_ok {s off : String} {dt u : PyDateTime} {oh om : Int}
    (h : parseOriginalDT s = some dt) (hne : off ≠ "")
    (ho : parseOffsetPair off = some (oh, om))
    (hs : subMinutes dt (oh * 60 + om) = some u) :
    UTC_from_exif s off = fmtTz u := by
  unfold UTC_from_exif
  rw [h]
  dsimp only
  rw [if_neg hne, ho]
  dsimp only
  rw [hs]

theorem parseOffsetPair_zeros : parseOffsetPair "00:00" = some (0, 0) := by rfl

theorem UTC_from_exif_empty_offset {s : String} {dt : PyDateTime}
    (h : parseOriginalDT s = some dt) :
    UTC_from_exif s "" = fmtTz dt := by
  have hv := parseOriginalDT_valid h
  unfold UTC_from_exif
  rw [h]
  dsimp only
  rw [if_pos rfl, parseOffsetPair_zeros]
  dsimp only
  have hz : (0 : Int) * 60 + 0 = 0 := by norm_num
  rw [hz, subMinutes_zero hv]

theorem UTC_from_exif_zero_offset {s : String} {dt : PyDateTime}
    (h : parseOriginalDT s = some dt) :
    UTC_from_exif s "00:00" = fmtTz dt := by
  have hv := parseOriginalDT_valid h
  unfold UTC_from_exif
  rw [h]
  dsimp only
  rw [if_neg (by decide), parseOffsetPair_zeros]
  dsimp only
  have hz : (0 : Int) * 60 + 0 = 0 := by norm_num
  rw [hz, subMinutes_zero hv]

/-! ### Resolver lemmas -/

theorem fmtNoTz_ne_empty {t : PyDateTime} (hy : 1000 ≤ t.year)
    (h2 : t.year ≤ 9999) : fmtNoTz t ≠ "" := by
  intro hc
  have := congrArg String.data hc
  rw [fmtNoTz_data] at this
  rw [repr_data_four hy h2] at this
  simp at this

theorem leadingColonBlank_zeros : leadingColonBlank "00:00" = false := by rfl

/-- When metadata reading fails and `st_ctime` is available with a
four-digit year, the resolver returns the formatted `st_ctime` as a UTC
string: `extract_exif` substitutes the formatted `st_ctime` with offset
`"00:00"`, and `UTC_from_exif` round-trips it. -/
theorem resolver_exif_fail {m : MetaEnv} {ct : PyDateTime}
    (he : m.exifLoad = none) (hc : m.ctimeStat = some ct)
    (hv : dtValid ct) (hy : 1000 ≤ ct.year) :
    get_file_datetime_from_exif m = some (fmtTz ct) := by
  have hparse := parseOriginalDT_fmt hv hy
  have h2 : ct.year ≤ 9999 := hv.2.1
  unfold get_file_datetime_from_exif extract_exif
  rw [he]
  simp only [get_file_ctime, hc, Option.map_some']
  rw [show (Option.getD (some "00:00") "") = "00:00" from rfl]
  rw [leadingColonBlank_zeros]
  simp only [Bool.false_eq_true, if_false, truthy]
  rw [if_pos (by simpa using fmtNoTz_ne_empty hy h2)]
  simp only [Option.getD_some]
  rw [UTC_from_exif_zero_offset hparse]

/-- When the EXIF load succeeds but `DateTimeOriginal` is absent or empty,
the resolver falls through to `get_file_ctime` (`st_ctime` formatted
without an offset suffix). -/
theorem resolver_dto_absent {m : MetaEnv} {tags : ExifTags}
    (he : m.exifLoad = some tags) (hd : truthy tags.dto = false) :
    get_file_datetime_from_exif m = get_file_ctime m := by
  unfold get_file_datetime_from_exif extract_exif
  rw [he]
  dsimp only
  split
  · rw [hd]
    simp
  · rw [hd]
    simp

/-- When the EXIF load succeeds, the capture-time string parses, and the
offset is partially blank (leading colon after optional whitespace), the
regex fix rewrites the offset to `"00:00"` and the local capture time is
returned unchanged as UTC. -/
theorem resolver_leading_colon {m : MetaEnv} {dtoS otoS : String}
    {dt : PyDateTime}
    (he : m.exifLoad = some ⟨some dtoS, some otoS⟩)
    (hp : parseOriginalDT dtoS = some dt)
    (hcol : leadingColonBlank otoS = true) :
    get_file_datetime_from_exif m = some (fmtTz dt) := by
  have hne : dtoS ≠ "" := by
    intro hc
    have hnone : parseOriginalDT "" = none := rfl
    rw [hc, hnone] at hp
    exact absurd hp (by simp)
  unfold get_file_datetime_from_exif extract_exif
  rw [he]
  dsimp only
  rw [show (Option.getD (some otoS) "") = otoS from rfl, hcol]
  simp only [if_true, truthy]
  rw [if_pos (by simpa using hne)]
  simp only [Option.getD_some]
  rw [UTC_from_exif_zero_offset hp]

/-! ### Offset-string lemmas -/

theorem digitChar_ne_plus {k : Nat} (h : k < 10) : Nat.digitChar k ≠ '+' := by
  interval_cases k <;> decide

theorem dropWhile_eq_self_of {p : Char → Bool} {l : List Char}
    (h : ∀ c ∈ l, p c = false) : l.dropWhile p = l := by
  cases l with
  | nil => rfl
  | cons a as => simp [List.dropWhile_cons, h a (by simp)]

theorem pyStrip_eq_self {l : List Char}
    (h : ∀ c ∈ l, Char.isWhitespace c = false) :
    ((l.dropWhile Char.isWhitespace).reverse.dropWhile
      Char.isWhitespace).reverse = l := by
  rw [dropWhile_eq_self_of h,
    dropWhile_eq_self_of (fun c hc => h c (by simpa using hc)),
    List.reverse_reverse]

theorem pad2_mem {n : Nat} (h : n ≤ 99) {c : Char} (hc : c ∈ (pad2 n).data) :
    ∃ k, k < 10 ∧ c = Nat.digitChar k := by
  by_cases hn : n < 10
  · rw [pad2_data_small hn] at hc
    simp only [List.mem_cons, List.mem_singleton, List.not_mem_nil, or_false] at hc
    rcases hc with rfl | rfl
    · exact ⟨0, by omega, rfl⟩
    · exact ⟨n, hn, rfl⟩
  · rw [pad2_data_large (by omega) h] at hc
    simp only [List.mem_cons, List.mem_singleton, List.not_mem_nil, or_false] at hc
    rcases hc with rfl | rfl
    · exact ⟨n / 10, by omega, rfl⟩
    · exact ⟨n % 10, by omega, rfl⟩

theorem pad2_data_ne_nil {n : Nat} (h : n ≤ 99) : (pad2 n).data ≠ [] := by
  by_cases hn : n < 10
  · rw [pad2_data_small hn]; simp
  · rw [pad2_data_large (by omega) h]; simp

theorem pad2_all_digits {n : Nat} (h : n ≤ 99) :
    ((pad2 n).data).all Char.isDigit = true := by
  rw [List.all_eq_true]
  intro c hc
  obtain ⟨k, hk, rfl⟩ := pad2_mem h hc
  exact digitChar_isDigit hk

theorem decVal_pad2 {n : Nat} (h : n ≤ 99) : decVal (pad2 n).data = n := by
  by_cases hn : n < 10
  · rw [pad2_data_small hn]
    simp [decVal, digitVal_digitChar hn]
    rfl
  · rw [pad2_data_large (by omega) h]
    simp [decVal, digitVal_digitChar (show n / 10 < 10 by omega),
      digitVal_digitChar (show n % 10 < 10 by omega)]
    omega

theorem pyIntCore_pad2 {n : Nat} (h : n ≤ 99) :
    pyIntCore (pad2 n).data = some (n : Int) := by
  by_cases hn : n < 10
  · have hd := pad2_data_small hn
    rw [hd]
    unfold pyIntCore
    dsimp only
    rw [if_neg (by decide), if_neg (by decide)]
    rw [if_pos (by rw [show ('0' :: [Nat.digitChar n]) = (pad2 n).data from hd.symm]; exact pad2_all_digits h)]
    rw [show ('0' :: [Nat.digitChar n]) = (pad2 n).data from hd.symm, decVal_pad2 h]
  · have hd := pad2_data_large (by omega) h
    rw [hd]
    unfold pyIntCore
    dsimp only
    rw [if_neg (by simpa using digitChar_ne_plus (show n / 10 < 10 by omega)),
      if_neg (by simpa using digitChar_ne_dash (show n / 10 < 10 by omega))]
    rw [if_pos (by rw [show (Nat.digitChar (n / 10) :: [Nat.digitChar (n % 10)]) = (pad2 n).data from hd.symm]; exact pad2_all_digits h)]
    rw [show (Nat.digitChar (n / 10) :: [Nat.digitChar (n % 10)]) =
      (pad2 n).data from hd.symm, decVal_pad2 h]

theorem pad2_not_ws {n : Nat} (h : n ≤ 99) :
    ∀ c ∈ (pad2 n).data, Char.isWhitespace c = false := by
  intro c hc
  obtain ⟨k, hk, rfl⟩ := pad2_mem h hc
  exact digitChar_not_ws hk

theorem pyInt_pad2 {n : Nat} (h : n ≤ 99) :
    pyInt (pad2 n).data = some (n : Int) := by
  unfold pyInt
  rw [pyStrip_eq_self (pad2_not_ws h)]
  exact pyIntCore_pad2 h

theorem pyInt_sign_pad2 (neg : Bool) {n : Nat} (h : n ≤ 99) :
    pyInt ((if neg then '-' else '+') :: (pad2 n).data) =
      some (if neg then -(n : Int) else (n : Int)) := by
  cases neg
  · show pyInt ('+' :: (pad2 n).data) = some (n : Int)
    unfold pyInt
    rw [pyStrip_eq_self (by
      intro c hc
      simp only [List.mem_cons] at hc
      rcases hc with rfl | hc
      · rfl
      · exact pad2_not_ws h c hc)]
    unfold pyIntCore
    dsimp only
    rw [if_pos rfl, if_pos ⟨pad2_data_ne_nil h, pad2_all_digits h⟩, decVal_pad2 h]
  · show pyInt ('-' :: (pad2 n).data) = some (-(n : Int))
    unfold pyInt
    rw [pyStrip_eq_self (by
      intro c hc
      simp only [List.mem_cons] at hc
      rcases hc with rfl | hc
      · rfl
      · exact pad2_not_ws h c hc)]
    unfold pyIntCore
    dsimp only
    rw [if_neg (by decide), if_pos rfl,
      if_pos ⟨pad2_data_ne_nil h, pad2_all_digits h⟩, decVal_pad2 h]

theorem pySplitChar_ne_nil (sep : Char) (l : List Char) :
    pySplitChar sep l ≠ [] := by
  cases l with
  | nil => simp [pySplitChar]
  | cons a as =>
    unfold pySplitChar
    cases pySplitChar sep as with
    | nil => simp
    | cons cur parts =>
      dsimp only
      split <;> simp

theorem pySplitChar_no_sep {sep : Char} {l : List Char}
    (h : ∀ c ∈ l, c ≠ sep) : pySplitChar sep l = [l] := by
  induction l with
  | nil => rfl
  | cons a as ih =>
    unfold pySplitChar
    rw [ih (fun c hc => h c (by simp [hc]))]
    dsimp only
    rw [if_neg (h a (by simp))]

theorem pySplitChar_append {sep : Char} {l₁ l₂ : List Char}
    (h : ∀ c ∈ l₁, c ≠ sep) :
    pySplitChar sep (l₁ ++ sep :: l₂) = l₁ :: pySplitChar sep l₂ := by
  induction l₁ with
  | nil =>
    simp only [List.nil_append]
    conv_lhs => unfold pySplitChar
    cases hsp : pySplitChar sep l₂ with
    | nil => exact absurd hsp (pySplitChar_ne_nil sep l₂)
    | cons cur parts =>
      dsimp only
      rw [if_pos rfl]
  | cons a as ih =>
    simp only [List.cons_append]
    conv_lhs => unfold pySplitChar
    rw [ih (fun c hc => h c (by simp [hc]))]
    dsimp only
    rw [if_neg (h a (by simp))]

theorem parseOffsetPair_signed (neg : Bool) {oh om : Nat} (hh : oh ≤ 99)
    (hm : om ≤ 99) :
    parseOffsetPair ((if neg then "-" else "+") ++ pad2 oh ++ ":" ++ pad2 om) =
      some ((if neg then -(oh : Int) else (oh : Int)), (om : Int)) := by
  have hdata : ((if neg then "-" else "+") ++ pad2 oh ++ ":" ++ pad2 om).data =
      ((if neg then '-' else '+') :: (pad2 oh).data) ++ ':' :: (pad2 om).data := by
    cases neg <;>
      simp [String.data_append, show ("-" : String).data = ['-'] from rfl,
        show ("+" : String).data = ['+'] from rfl,
        show (":" : String).data = [':'] from rfl]
  unfold parseOffsetPair
  rw [hdata]
  rw [pySplitChar_append (by
    intro c hc
    simp only [List.mem_cons] at hc
    rcases hc with rfl | hc
    · cases neg <;> decide
    · obtain ⟨k, hk, rfl⟩ := pad2_mem hh hc
      exact digitChar_ne_colon hk)]
  rw [pySplitChar_no_sep (by
    intro c hc
    obtain ⟨k, hk, rfl⟩ := pad2_mem hm hc
    exact digitChar_ne_colon hk)]
  dsimp only
  rw [pyInt_sign_pad2 neg hh, pyInt_pad2 hm]

/-- The composite behaviour for a present, syntactically well-formed
`±HH:MM` offset: the subtraction succeeds (inside the safe year range) and
the result moves the timeline by the Python-computed delta, in which the
sign applies to the hour component only. -/
theorem UTC_from_exif_signed_offset {s : String} {dt : PyDateTime}
    (neg : Bool) {oh om : Nat} (hp : parseOriginalDT s = some dt)
    (hh : oh ≤ 99) (hm : om ≤ 99) (hy2 : 2 ≤ dt.year) (hy8 : dt.year ≤ 9998) :
    ∃ u, subMinutes dt ((if neg then -(oh : Int) else (oh : Int)) * 60 + om) = some u ∧
      UTC_from_exif s ((if neg then "-" else "+") ++ pad2 oh ++ ":" ++ pad2 om) =
        fmtTz u ∧
      absSec u = absSec dt -
        ((if neg then -(oh : Int) else (oh : Int)) * 60 + om) * 60 := by
  have hv := parseOriginalDT_valid hp
  have hbound : ((if neg then -(oh : Int) else (oh : Int)) * 60 + (om : Int)).natAbs
      ≤ 6100 := by
    cases neg <;> simp <;> omega
  have hsome := subMinutes_isSome hv hy2 hy8 hbound
  cases hu : subMinutes dt ((if neg then -(oh : Int) else (oh : Int)) * 60 + om) with
  | none => rw [hu] at hsome; simp at hsome
  | some u =>
    have hne : (if neg then "-" else "+") ++ pad2 oh ++ ":" ++ pad2 om ≠ "" := by
      intro hc
      have := congrArg String.data hc
      cases neg <;> simp [String.data_append] at this
    refine ⟨u, rfl, ?_, (subMinutes_spec hv hu).2⟩
    exact UTC_from_exif_ok hp hne (parseOffsetPair_signed neg hh hm) hu

/-! ### Collision-loop lemmas -/

theorem pySplitExt_concat (s : String) :
    (pySplitExt s).1 ++ (pySplitExt s).2 = s := by
  unfold pySplitExt
  split
  · exact String.append_empty s
  · split
    · exact String.append_empty s
    · apply String.ext
      rw [String.data_append]
      show s.data.take _ ++ s.data.drop _ = s.data
      exact List.take_append_drop _ _

theorem string_append_data_assoc (a b c d : String) :
    (a ++ b ++ c ++ d).data = a.data ++ (b.data ++ (c.data ++ d.data)) := by
  simp [String.data_append]

theorem suffixedName_inj {stem ext : String} {k k' : Nat}
    (h : stem ++ "_" ++ Nat.repr k ++ ext = stem ++ "_" ++ Nat.repr k' ++ ext) :
    k = k' := by
  have hd := congrArg String.data h
  rw [string_append_data_assoc, string_append_data_assoc] at hd
  have h1 := List.append_cancel_left hd
  have h2 := List.append_cancel_left h1
  have h3 := List.append_cancel_right h2
  exact repr_injective (String.ext h3)

theorem candName_inj {orig stem ext : String}
    (hse : pySplitExt orig = (stem, ext)) {k k' : Nat}
    (h : candName orig stem ext k = candName orig stem ext k') : k = k' := by
  have hc : stem ++ ext = orig := by
    have := pySplitExt_concat orig
    rw [hse] at this
    exact this
  rcases Nat.eq_zero_or_pos k with rfl | hk <;>
    rcases Nat.eq_zero_or_pos k' with rfl | hk'
  · rfl
  · exfalso
    unfold candName at h
    rw [if_pos rfl, if_neg (by omega)] at h
    have hlen := congrArg String.length h
    rw [← hc] at hlen
    simp only [String.length_append] at hlen
    have := repr_length_pos k'
    have h1 : ("_" : String).length = 1 := rfl
    omega
  · exfalso
    unfold candName at h
    rw [if_neg (by omega), if_pos rfl] at h
    have hlen := congrArg String.length h
    rw [← hc] at hlen
    simp only [String.length_append] at hlen
    have := repr_length_pos k
    have h1 : ("_" : String).length = 1 := rfl
    omega
  · unfold candName at h
    rw [if_neg (by omega), if_neg (by omega)] at h
    exact suffixedName_inj h

theorem destLookup_some_mem {files : List DestFile} {dir : String × String}
    {nm : String} {c : Nat} (h : destLookup files dir nm = some c) :
    ∃ g ∈ files, g.dir = dir ∧ g.name = nm ∧ g.content = c := by
  unfold destLookup at h
  cases hf : files.find? (fun g => decide (g.dir = dir ∧ g.name = nm)) with
  | none => rw [hf] at h; simp at h
  | some g =>
    rw [hf] at h
    simp only [Option.map_some'] at h
    injection h with h
    have hp := List.find?_some hf
    have hm := List.mem_of_find?_eq_some hf
    simp only [decide_eq_true_eq] at hp
    exact ⟨g, hm, hp.1, hp.2, h⟩

theorem pigeonhole_cands {files : List DestFile} {dir : String × String}
    {orig stem ext : String} {h : Nat} (hse : pySplitExt orig = (stem, ext))
    (hall : ∀ j ≤ files.length + 1, occDiff files dir orig stem ext h j) :
    False := by
  have hsub : ((List.range (files.length + 2)).map
      (candName orig stem ext)) ⊆ files.map DestFile.name := by
    intro x hx
    simp only [List.mem_map, List.mem_range] at hx
    obtain ⟨j, hj, rfl⟩ := hx
    obtain ⟨c, hl, _⟩ := hall j (by omega)
    obtain ⟨g, hg, _, hn, _⟩ := destLookup_some_mem hl
    simp only [List.mem_map]
    exact ⟨g, hg, hn⟩
  have hnd : ((List.range (files.length + 2)).map
      (candName orig stem ext)).Nodup :=
    (List.nodup_range _).map (fun a b hab => candName_inj hse hab)
  have hsp := List.subperm_of_subset hnd hsub
  have := hsp.length_le
  simp only [List.length_map, List.length_range] at this
  omega

open Classical in
/-- There is a least candidate index that is not occupied by
different-content data, and it is at most `files.length + 1`. -/
theorem exists_spec_index (files : List DestFile) (dir : String × String)
    (orig stem ext : String) (h : Nat) (hse : pySplitExt orig = (stem, ext)) :
    ∃ k, k ≤ files.length + 1 ∧
      (∀ j < k, occDiff files dir orig stem ext h j) ∧
      ¬ occDiff files dir orig stem ext h k := by
  have hex : ∃ k, ¬ occDiff files dir orig stem ext h k := by
    by_contra hc
    push_neg at hc
    exact pigeonhole_cands hse (fun j _ => hc j)
  refine ⟨Nat.find hex, ?_, ?_, Nat.find_spec hex⟩
  · by_contra hb
    push_neg at hb
    exact pigeonhole_cands hse
      (fun j hj => not_not.mp (Nat.find_min hex (by omega)))
  · intro j hj
    exact not_not.mp (Nat.find_min hex hj)

theorem collideLoop_spec {files : List DestFile} {dir : String × String}
    {orig stem ext : String} {h : Nat} {k₀ : Nat}
    (hmin : ∀ j < k₀, occDiff files dir orig stem ext h j)
    (hP : ¬ occDiff files dir orig stem ext h k₀) :
    ∀ fuel i r, i ≤ k₀ → k₀ - i < fuel →
      collideLoop files dir stem ext h fuel (i + 1) (candName orig stem ext i) r =
        (match destLookup files dir (candName orig stem ext k₀) with
         | none => .fresh (candName orig stem ext k₀)
             (r + (if i = 0 ∧ 1 ≤ k₀ then 1 else 0))
         | some _ => .dup (r + (if i = 0 ∧ 1 ≤ k₀ then 1 else 0))) := by
  intro fuel
  induction fuel with
  | zero => intro i r _ hf; omega
  | succ fuel ih =>
    intro i r hik hf
    rcases Nat.lt_or_ge i k₀ with hlt | hge
    · obtain ⟨c, hl, hch⟩ := hmin i hlt
      unfold collideLoop
      rw [hl]
      dsimp only
      rw [if_neg hch]
      have hcand : stem ++ "_" ++ Nat.repr (i + 1) ++ ext =
          candName orig stem ext (i + 1) := by
        unfold candName
        rw [if_neg (by omega)]
      rw [hcand]
      rw [ih (i + 1) (if i + 1 = 1 then r + 1 else r) (by omega) (by omega)]
      have hk1 : 1 ≤ k₀ := by omega
      have hdelta : (if i + 1 = 1 then r + 1 else r) +
          (if i + 1 = 0 ∧ 1 ≤ k₀ then 1 else 0) =
          r + (if i = 0 ∧ 1 ≤ k₀ then 1 else 0) := by
        by_cases hi : i = 0
        · subst hi
          simp [hk1]
        · rw [if_neg (show ¬(i + 1 = 1) by omega), if_neg (by simp),
            if_neg (show ¬(i = 0 ∧ 1 ≤ k₀) by simp [hi])]
      rw [hdelta]
    · have hieq : i = k₀ := by omega
      subst hieq
      unfold collideLoop
      cases hl : destLookup files dir (candName orig stem ext i) with
      | none =>
        dsimp only
        rw [if_neg (show ¬(i = 0 ∧ 1 ≤ i) by omega), Nat.add_zero]
      | some c =>
        dsimp only
        have hch : c = h := by
          by_contra hc
          exact hP ⟨c, hl, hc⟩
        rw [if_pos hch, if_neg (show ¬(i = 0 ∧ 1 ≤ i) by omega), Nat.add_zero]

theorem collide_spec (files : List DestFile) (dir : String × String)
    (orig : String) (h : Nat) :
    ∃ k, (∀ j < k, occDiff files dir orig (pySplitExt orig).1
        (pySplitExt orig).2 h j) ∧
      ¬ occDiff files dir orig (pySplitExt orig).1 (pySplitExt orig).2 h k ∧
      collide files dir orig h =
        (match destLookup files dir
            (candName orig (pySplitExt orig).1 (pySplitExt orig).2 k) with
         | none => .fresh (candName orig (pySplitExt orig).1 (pySplitExt orig).2 k)
             (if 1 ≤ k then 1 else 0)
         | some _ => .dup (if 1 ≤ k then 1 else 0)) := by
  obtain ⟨k, hk, hmin, hP⟩ := exists_spec_index files dir orig
    (pySplitExt orig).1 (pySplitExt orig).2 h rfl
  refine ⟨k, hmin, hP, ?_⟩
  have hc := collideLoop_spec hmin hP (files.length + 2) 0
    0 (by omega) (by omega)
  have hcz : candName orig (pySplitExt orig).1 (pySplitExt orig).2 0 = orig := by
    unfold candName
    rw [if_pos rfl]
  unfold collide
  rw [hcz] at hc
  simp only [Nat.zero_add, eq_self_iff_true, true_and] at hc
  exact hc

theorem collide_free {files : List DestFile} {dir : String × String}
    {orig : String} {h : Nat} (hl : destLookup files dir orig = none) :
    collide files dir orig h = .fresh orig 0 := by
  unfold collide collideLoop
  rw [hl]

theorem collide_dup_orig {files : List DestFile} {dir : String × String}
    {orig : String} {h : Nat} (hl : destLookup files dir orig = some h) :
    collide files dir orig h = .dup 0 := by
  unfold collide collideLoop
  rw [hl]
  dsimp only
  rw [if_pos rfl]

/-! ### Claim C2 -/

/-- C2 counterexample: the date resolver reads `st_ctime`, not the
last-modification time.  A `.MOV` file whose metadata read fails, with
`st_mtime` 2022-01-01 00:00:00 but `st_ctime` 2023-05-05 10:00:00, is
placed under `dest/2023/2023-05-05/` — not under `dest/2022/2022-01-01/`
as the claim (which says the modification timestamp is used) predicts. -/
theorem C2_counterexample :
    (organize_media ⟨false, false, false, true, true, true, []⟩
      [⟨"/src/clip.MOV", "clip.MOV",
        ⟨none, some ⟨2023, 5, 5, 10, 0, 0⟩, ⟨2022, 1, 1, 0, 0, 0⟩⟩,
        7, true, true, true⟩]
      ⟨[], [], []⟩).map (fun st => st.dest.files) =
      some [⟨("2023", "2023-05-05"), "clip.MOV", 7⟩] ∧
    fmtNoTz (⟨2022, 1, 1, 0, 0, 0⟩ : PyDateTime) = "2022-01-01 00:00:00" ∧
    ("2023", "2023-05-05") ≠ (("2022", "2022-01-01") : String × String) := by
  refine ⟨by decide, by decide, by decide⟩

/-- C2 (amended): when the metadata read fails (or `DateTimeOriginal` is
absent), the resolver uses the filesystem `st_ctime` timestamp — the
platform-dependent change/creation time, not `st_mtime` — as local time
with no offset conversion; `st_mtime` is never consulted.  The `.MOV`
scenario holds with `st_ctime` (not the modification time) equal to
2022-01-01 00:00:00: the file is placed under `dest/2022/2022-01-01/`. -/
theorem C2_ctime_not_mtime {m : MetaEnv} {ct : PyDateTime}
    (he : m.exifLoad = none) (hc : m.ctimeStat = some ct) (hv : dtValid ct)
    (hy : 1000 ≤ ct.year) :
    get_file_datetime_from_exif m = some (fmtTz ct) ∧
    (∀ mt : PyDateTime,
      get_file_datetime_from_exif ⟨m.exifLoad, m.ctimeStat, mt⟩ =
        get_file_datetime_from_exif m) ∧
    (organize_media ⟨false, false, false, true, true, true, []⟩
      [⟨"/src/clip.MOV", "clip.MOV",
        ⟨none, some ⟨2022, 1, 1, 0, 0, 0⟩, ⟨2022, 1, 1, 0, 0, 0⟩⟩,
        7, true, true, true⟩]
      ⟨[], [], []⟩).map (fun st => st.dest.files) =
      some [⟨("2022", "2022-01-01"), "clip.MOV", 7⟩] := by
  refine ⟨resolver_exif_fail he hc hv hy, ?_, by decide⟩
  intro mt
  rw [@resolver_exif_fail ⟨m.exifLoad, m.ctimeStat, mt⟩ ct he hc hv hy,
    resolver_exif_fail he hc hv hy]

/-- C2 witness: the amended theorem applied to the `.MOV` scenario. -/
theorem C2_ctime_not_mtime_witness :
    get_file_datetime_from_exif
      ⟨none, some ⟨2022, 1, 1, 0, 0, 0⟩, ⟨1999, 1, 1, 0, 0, 0⟩⟩ =
      some (fmtTz ⟨2022, 1, 1, 0, 0, 0⟩) :=
  (@C2_ctime_not_mtime ⟨none, some ⟨2022, 1, 1, 0, 0, 0⟩,
      ⟨1999, 1, 1, 0, 0, 0⟩⟩ ⟨2022, 1, 1, 0, 0, 0⟩
    rfl rfl (by decide) (by decide)).1

/-! ### Claim C3 -/

/-- C3 counterexample: a malformed offset does not yield the local capture
time with a zero offset; it falls back to the epoch.  With capture time
`2023:07:15 14:30:00` (which parses) and offset `"junk"`, the code returns
`1970-01-01 00:00:00`, not `2023-07-15 14:30:00+0000`. -/
theorem C3_counterexample :
    parseOriginalDT "2023:07:15 14:30:00" = some ⟨2023, 7, 15, 14, 30, 0⟩ ∧
    UTC_from_exif "2023:07:15 14:30:00" "junk" = "1970-01-01 00:00:00" ∧
    fmtTz (⟨2023, 7, 15, 14, 30, 0⟩ : PyDateTime) = "2023-07-15 14:30:00+0000" ∧
    UTC_from_exif "2023:07:15 14:30:00" "junk" ≠ "2023-07-15 14:30:00+0000" := by
  refine ⟨by decide, by decide, by decide, by decide⟩

/-- C3 (amended): for a capture-time string that parses, a missing offset
or a partially blank offset (leading colon after optional whitespace) is
treated as zero and the parsed local capture time is returned unchanged as
the UTC result; but an offset string that fails the two-integer `HH:MM`
parse (non-numeric, wrong number of parts, blank parts) raises
`ValueError` and falls back to the epoch `1970-01-01 00:00:00`. -/
theorem C3_offset_fallbacks :
    (∀ (s : String) (dt : PyDateTime), parseOriginalDT s = some dt →
      UTC_from_exif s "" = fmtTz dt) ∧
    (∀ (m : MetaEnv) (dtoS otoS : String) (dt : PyDateTime),
      m.exifLoad = some ⟨some dtoS, some otoS⟩ →
      parseOriginalDT dtoS = some dt → leadingColonBlank otoS = true →
      get_file_datetime_from_exif m = some (fmtTz dt)) ∧
    (∀ (s off : String) (dt : PyDateTime), parseOriginalDT s = some dt →
      off ≠ "" → parseOffsetPair off = none →
      UTC_from_exif s off = fmtNoTz epochDT) := by
  refine ⟨?_, ?_, ?_⟩
  · intro s dt h
    exact UTC_from_exif_empty_offset h
  · intro m dtoS otoS dt he hp hcol
    exact resolver_leading_colon he hp hcol
  · intro s off dt h hne ho
    exact UTC_from_exif_offset_fail h hne ho

/-- C3 witness: the three amended branches at concrete inputs — an empty
offset, a partially blank offset `": 30"`, and a malformed offset. -/
theorem C3_offset_fallbacks_witness :
    UTC_from_exif "2023:07:15 14:30:00" "" =
      fmtTz ⟨2023, 7, 15, 14, 30, 0⟩ ∧
    get_file_datetime_from_exif
      ⟨some ⟨some "2023:07:15 14:30:00", some ": 30"⟩, none,
        ⟨1999, 1, 1, 0, 0, 0⟩⟩ =
      some (fmtTz ⟨2023, 7, 15, 14, 30, 0⟩) ∧
    UTC_from_exif "2023:07:15 14:30:00" "04:00:00" = fmtNoTz epochDT :=
  ⟨C3_offset_fallbacks.1 "2023:07:15 14:30:00" ⟨2023, 7, 15, 14, 30, 0⟩
      (by decide),
   C3_offset_fallbacks.2.1
      ⟨some ⟨some "2023:07:15 14:30:00", some ": 30"⟩, none,
        ⟨1999, 1, 1, 0, 0, 0⟩⟩
      "2023:07:15 14:30:00" ": 30" ⟨2023, 7, 15, 14, 30, 0⟩ rfl
      (by decide) (by decide),
   C3_offset_fallbacks.2.2 "2023:07:15 14:30:00" "04:00:00"
      ⟨2023, 7, 15, 14, 30, 0⟩ (by decide) (by decide) (by decide)⟩

/-! ### Claim C6 -/

/-- C6 counterexample: for a negative offset with a nonzero minute field
the resolved time is not `local - signed_offset`.  With capture time
`2023:07:15 14:30:00` and well-formed offset `-00:30` (signed value −30
minutes), `local - (−30 min)` is 15:00:00, but the code parses
`hours = int("-00") = 0, minutes = 30` and returns 14:00:00. -/
theorem C6_counterexample :
    UTC_from_exif "2023:07:15 14:30:00" "-00:30" = "2023-07-15 14:00:00+0000" ∧
    subMinutes ⟨2023, 7, 15, 14, 30, 0⟩ (-30) =
      some ⟨2023, 7, 15, 15, 0, 0⟩ ∧
    fmtTz (⟨2023, 7, 15, 15, 0, 0⟩ : PyDateTime) = "2023-07-15 15:00:00+0000" ∧
    UTC_from_exif "2023:07:15 14:30:00" "-00:30" ≠ "2023-07-15 15:00:00+0000" := by
  refine ⟨by decide, by decide, by decide, by decide⟩

/-- C6 (amended): for every capture-time string that parses (with a year
strictly inside the representable range) and every present well-formed
`±HH:MM` offset, the resolved UTC timestamp equals the local capture time
minus the delta Python computes, in which the sign applies to the hours
component only: `delta = int(±HH)·60 + int(MM)` minutes.  For non-negative
offsets, and for negative offsets with `MM = 00` (such as the `-04:00`
scenario), this coincides with subtracting the signed offset; the scenario
resolves to `2023-07-15 18:30:00+0000` and the file lands under
`dest/2023/2023-07-15/`. -/
theorem C6_offset_subtraction {s : String} {dt : PyDateTime} (neg : Bool)
    {oh om : Nat} (hp : parseOriginalDT s = some dt) (hh : oh ≤ 99)
    (hm : om ≤ 99) (hy2 : 2 ≤ dt.year) (hy8 : dt.year ≤ 9998) :
    (∃ u, subMinutes dt ((if neg then -(oh : Int) else (oh : Int)) * 60 + om) =
        some u ∧
      UTC_from_exif s ((if neg then "-" else "+") ++ pad2 oh ++ ":" ++ pad2 om) =
        fmtTz u ∧
      absSec u = absSec dt -
        ((if neg then -(oh : Int) else (oh : Int)) * 60 + om) * 60) ∧
    UTC_from_exif "2023:07:15 14:30:00" "-04:00" = "2023-07-15 18:30:00+0000" ∧
    (organize_media ⟨false, false, false, true, true, true, []⟩
      [⟨"/src/p.jpg", "p.jpg",
        ⟨some ⟨some "2023:07:15 14:30:00", some "-04:00"⟩, none,
          ⟨2000, 1, 1, 0, 0, 0⟩⟩, 3, true, true, true⟩]
      ⟨[], [], []⟩).map (fun st => st.dest.files) =
      some [⟨("2023", "2023-07-15"), "p.jpg", 3⟩] :=
  ⟨UTC_from_exif_signed_offset neg hp hh hm hy2 hy8, by decide, by decide⟩

/-- C6 witness: the amended theorem applied to the scenario inputs
(capture `2023:07:15 14:30:00`, offset `-04:00`, so `neg`, `oh = 4`,
`om = 0`). -/
theorem C6_offset_subtraction_witness :
    ∃ u, subMinutes ⟨2023, 7, 15, 14, 30, 0⟩ (-(4 : Int) * 60 + 0) = some u ∧
      UTC_from_exif "2023:07:15 14:30:00" ("-" ++ pad2 4 ++ ":" ++ pad2 0) =
        fmtTz u ∧
      absSec u = absSec ⟨2023, 7, 15, 14, 30, 0⟩ - (-(4 : Int) * 60 + 0) * 60 :=
  (@C6_offset_subtraction "2023:07:15 14:30:00"
    ⟨2023, 7, 15, 14, 30, 0⟩ true 4 0
    (by decide) (by norm_num) (by norm_num) (by norm_num) (by norm_num)).1

/-! ### Engine step lemmas -/

theorem processFile_unsupported {cfg : Config} {st : RunState} {f : SrcFile}
    (h : supportedName f.name = false) : processFile cfg st f = st := by
  unfold processFile
  rw [if_pos (by simp [h])]

theorem processFile_dateless {cfg : Config} {st : RunState} {f : SrcFile}
    (hs : supportedName f.name = true)
    (hd : get_file_datetime_from_exif f.meta = none) :
    processFile cfg st f =
      { st with scanned := st.scanned + 1, errored := st.errored + 1 } := by
  unfold processFile
  rw [if_neg (by simp [hs]), hd]

theorem processFile_unhashable {cfg : Config} {st : RunState} {f : SrcFile}
    {fdt : String} (hs : supportedName f.name = true)
    (hd : get_file_datetime_from_exif f.meta = some fdt)
    (hh : f.hashable = false) :
    processFile cfg st f =
      { st with scanned := st.scanned + 1, errored := st.errored + 1 } := by
  unfold processFile
  rw [if_neg (by simp [hs]), hd]
  dsimp only
  rw [show get_file_hash f = none from by simp [get_file_hash, hh]]

theorem get_file_hash_hashable {f : SrcFile} (hh : f.hashable = true) :
    get_file_hash f = some f.content := by
  simp [get_file_hash, hh]

theorem processFile_dup_index {cfg : Config} {st : RunState} {f : SrcFile}
    {fdt : String} (hs : supportedName f.name = true)
    (hd : get_file_datetime_from_exif f.meta = some fdt)
    (hh : f.hashable = true) (hmem : f.content ∈ st.hashes) :
    processFile cfg st f = dupDelete cfg f true
      { st with scanned := st.scanned + 1, skipped := st.skipped + 1 } := by
  unfold processFile
  rw [if_neg (by simp [hs]), hd]
  dsimp only
  rw [get_file_hash_hashable hh]
  dsimp only
  rw [if_pos hmem]

theorem processFile_collide_dup {cfg : Config} {st : RunState} {f : SrcFile}
    {fdt : String} {rd : Nat} (hs : supportedName f.name = true)
    (hd : get_file_datetime_from_exif f.meta = some fdt)
    (hh : f.hashable = true) (hmem : f.content ∉ st.hashes)
    (hc : collide st.dest.files (targetDirOf fdt) f.name f.content = .dup rd) :
    processFile cfg st f = dupDelete cfg f false
      { st with scanned := st.scanned + 1, skipped := st.skipped + 1,
                renamed := st.renamed + rd } := by
  unfold processFile
  rw [if_neg (by simp [hs]), hd]
  dsimp only
  rw [get_file_hash_hashable hh]
  dsimp only
  rw [if_neg hmem, hc]

theorem processFile_fresh {cfg : Config} {st : RunState} {f : SrcFile}
    {fdt nm : String} {rd : Nat} (hs : supportedName f.name = true)
    (hd : get_file_datetime_from_exif f.meta = some fdt)
    (hh : f.hashable = true) (hmem : f.content ∉ st.hashes)
    (hc : collide st.dest.files (targetDirOf fdt) f.name f.content =
      .fresh nm rd) :
    processFile cfg st f = dirAndTransfer cfg f (targetDirOf fdt) nm f.content
      { st with scanned := st.scanned + 1, renamed := st.renamed + rd } := by
  unfold processFile
  rw [if_neg (by simp [hs]), hd]
  dsimp only
  rw [get_file_hash_hashable hh]
  dsimp only
  rw [if_neg hmem, hc]

theorem transferStep_scanned (cfg : Config) (f : SrcFile)
    (dir : String × String) (nm : String) (h : Nat) (st : RunState) :
    (transferStep cfg f dir nm h st).scanned = st.scanned := by
  unfold transferStep
  split_ifs <;> rfl

theorem dirAndTransfer_scanned (cfg : Config) (f : SrcFile)
    (dir : String × String) (nm : String) (h : Nat) (st : RunState) :
    (dirAndTransfer cfg f dir nm h st).scanned = st.scanned := by
  unfold dirAndTransfer
  split_ifs <;> simp [transferStep_scanned]

theorem dupDelete_scanned (cfg : Config) (f : SrcFile) (b : Bool)
    (st : RunState) : (dupDelete cfg f b st).scanned = st.scanned := by
  unfold dupDelete
  split_ifs <;> rfl

theorem processFile_scanned (cfg : Config) (st : RunState) (f : SrcFile) :
    (processFile cfg st f).scanned =
      st.scanned + (if supportedName f.name then 1 else 0) := by
  by_cases hs : supportedName f.name
  · rw [if_pos hs]
    unfold processFile
    rw [if_neg (by simp [hs])]
    cases hd : get_file_datetime_from_exif f.meta with
    | none => rfl
    | some fdt =>
      dsimp only
      cases hg : get_file_hash f with
      | none => rfl
      | some h =>
        dsimp only
        by_cases hm : h ∈ st.hashes
        · rw [if_pos hm, dupDelete_scanned]
        · rw [if_neg hm]
          cases hc : collide st.dest.files (targetDirOf fdt) f.name h with
          | dup rd => dsimp only; rw [dupDelete_scanned]
          | fresh nm rd => dsimp only; rw [dirAndTransfer_scanned]
  · rw [if_neg hs, processFile_unsupported (by simpa using hs)]
    omega

theorem foldl_scanned (cfg : Config) :
    ∀ (files : List SrcFile) (st : RunState),
      (files.foldl (processFile cfg) st).scanned =
        st.scanned + (files.filter (fun f => supportedName f.name)).length := by
  intro files
  induction files with
  | nil => intro st; simp
  | cons f fs ih =>
    intro st
    rw [List.foldl_cons, ih, processFile_scanned]
    by_cases hs : supportedName f.name
    · simp [hs]
      omega
    · simp [hs]

/-! ### Claim C8 -/

theorem hashFeed_eq : ∀ bs : List Nat, hashFeed bs = bs := by
  intro bs
  generalize hn : bs.length = n
  induction n using Nat.strong_induction_on generalizing bs with
  | _ n ih =>
    cases bs with
    | nil => rw [hashFeed]
    | cons b rest =>
      rw [hashFeed]
      have hlt : ((b :: rest).drop 65536).length < n := by
        subst hn
        simp [List.length_drop]
        omega
      rw [ih _ hlt _ rfl, List.take_append_drop]

/-- C8: the block-read loop of `get_file_hash` feeds the digest the entire
byte content (never a prefix), so the dedup keys of two readable files
coincide exactly when their contents coincide; an unreadable file yields
the error value `None` instead of raising; and the caller counts such a
file as errored, leaves every other part of the run state unchanged, and
moves on. -/
theorem C8_full_content_hash :
    (∀ bs : List Nat, get_file_hash_bytes true bs = some bs) ∧
    (∀ bs bs' : List Nat,
      get_file_hash_bytes true bs = get_file_hash_bytes true bs' ↔ bs = bs') ∧
    (∀ bs : List Nat, get_file_hash_bytes false bs = none) ∧
    (∀ (cfg : Config) (st : RunState) (f : SrcFile) (fdt : String),
      supportedName f.name = true →
      get_file_datetime_from_exif f.meta = some fdt →
      f.hashable = false →
      processFile cfg st f =
        { st with scanned := st.scanned + 1, errored := st.errored + 1 }) := by
  refine ⟨?_, ?_, ?_, ?_⟩
  · intro bs
    simp [get_file_hash_bytes, hashFeed_eq]
  · intro bs bs'
    simp [get_file_hash_bytes, hashFeed_eq]
  · intro bs
    simp [get_file_hash_bytes]
  · intro cfg st f fdt hs hd hh
    exact processFile_unhashable hs hd hh

/-- C8 witness: the conjuncts applied at concrete inputs — a two-byte
content, an unreadable file, and a run state where an unreadable source
file is counted as errored only. -/
theorem C8_full_content_hash_witness :
    get_file_hash_bytes true [7, 9] = some [7, 9] ∧
    get_file_hash_bytes false [7, 9] = none ∧
    processFile ⟨false, false, false, true, true, true, []⟩
      ⟨⟨[], [], []⟩, [], 0, 0, 0, 0, 0, 0, []⟩
      ⟨"/s/a.jpg", "a.jpg", ⟨none, some ⟨2022, 1, 1, 0, 0, 0⟩,
        ⟨2022, 1, 1, 0, 0, 0⟩⟩, 7, false, true, true⟩ =
      ⟨⟨[], [], []⟩, [], 1, 0, 0, 0, 1, 0, []⟩ :=
  ⟨C8_full_content_hash.1 [7, 9],
   C8_full_content_hash.2.2.1 [7, 9],
   C8_full_content_hash.2.2.2 ⟨false, false, false, true, true, true, []⟩
     ⟨⟨[], [], []⟩, [], 0, 0, 0, 0, 0, 0, []⟩
     ⟨"/s/a.jpg", "a.jpg", ⟨none, some ⟨2022, 1, 1, 0, 0, 0⟩,
       ⟨2022, 1, 1, 0, 0, 0⟩⟩, 7, false, true, true⟩
     "2022-01-01 00:00:00+0000" (by decide) (by decide) rfl⟩

/-! ### Claim C10 -/

/-- C10: with delete-source-duplicates on and dry-run off, a source file
deleted because the on-disk collision comparison found a byte-identical
same-named file at the target path does not increment `dups_removed` —
that counter is incremented only by deletions triggered by a
destination-index digest hit — so the reported removals can undercount the
files actually deleted. -/
theorem C10_dups_removed_undercount :
    (∀ (cfg : Config) (st : RunState) (f : SrcFile) (fdt : String) (rd : Nat),
      cfg.deleteSourceDuplicates = true → cfg.dryRun = false →
      f.removeOk = true →
      supportedName f.name = true →
      get_file_datetime_from_exif f.meta = some fdt →
      f.hashable = true → f.content ∉ st.hashes →
      collide st.dest.files (targetDirOf fdt) f.name f.content = .dup rd →
      processFile cfg st f =
        { st with scanned := st.scanned + 1, skipped := st.skipped + 1,
                  renamed := st.renamed + rd,
                  removedSources := f.path :: st.removedSources }) ∧
    (∀ (cfg : Config) (st : RunState) (f : SrcFile) (fdt : String),
      cfg.deleteSourceDuplicates = true → cfg.dryRun = false →
      f.removeOk = true →
      supportedName f.name = true →
      get_file_datetime_from_exif f.meta = some fdt →
      f.hashable = true → f.content ∈ st.hashes →
      processFile cfg st f =
        { st with scanned := st.scanned + 1, skipped := st.skipped + 1,
                  removedSources := f.path :: st.removedSources,
                  dupsRemoved := st.dupsRemoved + 1 }) := by
  constructor
  · intro cfg st f fdt rd hdel hdry hrm hs hd hh hmem hc
    rw [processFile_collide_dup hs hd hh hmem hc]
    unfold dupDelete
    rw [if_pos (by simp [hdel, hdry]), if_pos hrm, if_neg (by simp)]
  · intro cfg st f fdt hdel hdry hrm hs hd hh hmem
    rw [processFile_dup_index hs hd hh hmem]
    unfold dupDelete
    rw [if_pos (by simp [hdel, hdry]), if_pos hrm, if_pos rfl]

/-- C10 witness: a same-named identical file already at the target path is
deleted without touching `dups_removed` (first conjunct), while an index
hit increments it (second conjunct). -/
theorem C10_dups_removed_undercount_witness :
    processFile ⟨true, false, false, true, true, true, []⟩
      ⟨⟨[⟨("2022", "2022-01-01"), "a.jpg", 7⟩], [("2022", "2022-01-01")], []⟩,
        [], 0, 0, 0, 0, 0, 0, []⟩
      ⟨"/s/a.jpg", "a.jpg", ⟨none, some ⟨2022, 1, 1, 0, 0, 0⟩,
        ⟨2022, 1, 1, 0, 0, 0⟩⟩, 7, true, true, true⟩ =
      ⟨⟨[⟨("2022", "2022-01-01"), "a.jpg", 7⟩], [("2022", "2022-01-01")], []⟩,
        [], 1, 0, 1, 0, 0, 0, ["/s/a.jpg"]⟩ ∧
    processFile ⟨true, false, false, true, true, true, []⟩
      ⟨⟨[], [], []⟩, [7], 0, 0, 0, 0, 0, 0, []⟩
      ⟨"/s/b.jpg", "b.jpg", ⟨none, some ⟨2022, 1, 1, 0, 0, 0⟩,
        ⟨2022, 1, 1, 0, 0, 0⟩⟩, 7, true, true, true⟩ =
      ⟨⟨[], [], []⟩, [7], 1, 0, 1, 0, 0, 1, ["/s/b.jpg"]⟩ :=
  ⟨C10_dups_removed_undercount.1 ⟨true, false, false, true, true, true, []⟩
      ⟨⟨[⟨("2022", "2022-01-01"), "a.jpg", 7⟩], [("2022", "2022-01-01")], []⟩,
        [], 0, 0, 0, 0, 0, 0, []⟩
      ⟨"/s/a.jpg", "a.jpg", ⟨none, some ⟨2022, 1, 1, 0, 0, 0⟩,
        ⟨2022, 1, 1, 0, 0, 0⟩⟩, 7, true, true, true⟩
      "2022-01-01 00:00:00+0000" 0 rfl rfl rfl (by decide) (by decide) rfl
      (by decide) (by decide),
   C10_dups_removed_undercount.2 ⟨true, false, false, true, true, true, []⟩
      ⟨⟨[], [], []⟩, [7], 0, 0, 0, 0, 0, 0, []⟩
      ⟨"/s/b.jpg", "b.jpg", ⟨none, some ⟨2022, 1, 1, 0, 0, 0⟩,
        ⟨2022, 1, 1, 0, 0, 0⟩⟩, 7, true, true, true⟩
      "2022-01-01 00:00:00+0000" rfl rfl rfl (by decide) (by decide) rfl
      (by decide)⟩

/-! ### Claim C4 -/

/-- C4 counterexample: a run whose source root is not a directory aborts
`organize_media` immediately (the structural early return), yet `main`
falls off the end of the function without calling `sys.exit`, so the
process exit status is 0 — not the non-zero status the claim requires. -/
theorem C4_counterexample :
    organize_media ⟨false, false, false, false, true, true, []⟩ []
      ⟨[], [], []⟩ = none ∧
    photocatalog_main_exit ⟨false, false, false, false, true, true, []⟩ []
      ⟨[], [], []⟩ = 0 ∧
    ¬ photocatalog_main_exit ⟨false, false, false, false, true, true, []⟩ []
      ⟨[], [], []⟩ ≠ 0 :=
  ⟨rfl, rfl, fun h => h rfl⟩

/-- C4: per-file failures (undeterminable date, unhashable file, day
directory creation failure, transfer failure) never abort the run — the
file is counted in `errored`, every other file is still visited (the final
`scanned` equals the number of supported files), and the run still returns
a final state; the structural failures (source root missing or not a
directory, destination root absent and uncreatable outside dry-run) abort
`organize_media` immediately before any file is processed — but `main`
exits with status 0 on every path, including the structural aborts, not
with the non-zero status the spec claims. -/
theorem C4_error_containment :
    (∀ (cfg : Config) (st : RunState) (f : SrcFile),
      supportedName f.name = true →
      get_file_datetime_from_exif f.meta = none →
      processFile cfg st f =
        { st with scanned := st.scanned + 1, errored := st.errored + 1 }) ∧
    (∀ (cfg : Config) (st : RunState) (f : SrcFile) (fdt : String),
      supportedName f.name = true →
      get_file_datetime_from_exif f.meta = some fdt →
      f.hashable = false →
      processFile cfg st f =
        { st with scanned := st.scanned + 1, errored := st.errored + 1 }) ∧
    (∀ (cfg : Config) (st : RunState) (f : SrcFile) (fdt nm : String)
        (rd : Nat),
      cfg.dryRun = false →
      supportedName f.name = true →
      get_file_datetime_from_exif f.meta = some fdt →
      f.hashable = true → f.content ∉ st.hashes →
      collide st.dest.files (targetDirOf fdt) f.name f.content =
        .fresh nm rd →
      dayExistsFS st.dest (targetDirOf fdt) = false →
      targetDirOf fdt ∈ cfg.mkdirFails →
      processFile cfg st f =
        { st with scanned := st.scanned + 1, renamed := st.renamed + rd,
                  errored := st.errored + 1 }) ∧
    (∀ (cfg : Config) (st : RunState) (f : SrcFile) (fdt nm : String)
        (rd : Nat),
      cfg.dryRun = false →
      supportedName f.name = true →
      get_file_datetime_from_exif f.meta = some fdt →
      f.hashable = true → f.content ∉ st.hashes →
      collide st.dest.files (targetDirOf fdt) f.name f.content =
        .fresh nm rd →
      dayIsDir st.dest (targetDirOf fdt) = true →
      f.transferOk = false →
      processFile cfg st f =
        { st with scanned := st.scanned + 1, renamed := st.renamed + rd,
                  errored := st.errored + 1 }) ∧
    (∀ (cfg : Config) (files : List SrcFile) (dest0 : Dest),
      cfg.sourceIsDir = true →
      (cfg.destIsDir = true ∨ cfg.dryRun = true ∨ cfg.destRootOk = true) →
      ∃ stf, organize_media cfg files dest0 = some stf ∧
        stf.scanned =
          (files.filter (fun f => supportedName f.name)).length) ∧
    (∀ (cfg : Config) (files : List SrcFile) (dest0 : Dest),
      cfg.sourceIsDir = false → organize_media cfg files dest0 = none) ∧
    (∀ (cfg : Config) (files : List SrcFile) (dest0 : Dest),
      cfg.destIsDir = false → cfg.dryRun = false → cfg.destRootOk = false →
      organize_media cfg files dest0 = none) ∧
    (∀ (cfg : Config) (files : List SrcFile) (dest0 : Dest),
      photocatalog_main_exit cfg files dest0 = 0) := by
  refine ⟨?_, ?_, ?_, ?_, ?_, ?_, ?_, ?_⟩
  · intro cfg st f hs hd
    exact processFile_dateless hs hd
  · intro cfg st f fdt hs hd hh
    exact processFile_unhashable hs hd hh
  · intro cfg st f fdt nm rd hdry hs hd hh hmem hc hday hmk
    rw [processFile_fresh hs hd hh hmem hc]
    unfold dirAndTransfer
    rw [if_pos (by simp [hday]), if_pos (by simp [hdry]), if_pos hmk]
  · intro cfg st f fdt nm rd hdry hs hd hh hmem hc hdi htr
    rw [processFile_fresh hs hd hh hmem hc]
    unfold dirAndTransfer
    rw [if_neg (by simp [dayExistsFS, hdi]), if_neg (by simp [hdi])]
    unfold transferStep
    rw [if_pos (by simp [hdry]), if_neg (by simp [htr])]
  · intro cfg files dest0 hsrc hok
    refine ⟨files.foldl (processFile cfg)
      ⟨dest0, seedHashes cfg dest0, 0, 0, 0, 0, 0, 0, []⟩, ?_, ?_⟩
    · unfold organize_media
      rw [if_neg (by simp [hsrc]),
        if_neg (by rcases hok with h | h | h <;> simp [h])]
    · simp [foldl_scanned]
  · intro cfg files dest0 h
    unfold organize_media
    rw [if_pos (by simp [h])]
  · intro cfg files dest0 h1 h2 h3
    unfold organize_media
    by_cases hs : cfg.sourceIsDir = true
    · rw [if_neg (by simp [hs]),
        if_pos ⟨by simp [h1], by simp [h2], by simp [h3]⟩]
    · simp only [Bool.not_eq_true] at hs
      rw [if_pos (by simp [hs])]
  · intro cfg files dest0
    rfl

/-- C4 witness: a day-directory creation failure and a transfer failure
each error one file only; a missing source root aborts with exit 0. -/
theorem C4_error_containment_witness :
    processFile ⟨false, false, false, true, true, true,
        [("2022", "2022-01-01")]⟩
      ⟨⟨[], [], []⟩, [], 0, 0, 0, 0, 0, 0, []⟩
      ⟨"/s/a.jpg", "a.jpg", ⟨none, some ⟨2022, 1, 1, 0, 0, 0⟩,
        ⟨2022, 1, 1, 0, 0, 0⟩⟩, 7, true, true, true⟩ =
      ⟨⟨[], [], []⟩, [], 1, 0, 0, 0, 1, 0, []⟩ ∧
    processFile ⟨false, false, false, true, true, true, []⟩
      ⟨⟨[], [("2022", "2022-01-01")], []⟩, [], 0, 0, 0, 0, 0, 0, []⟩
      ⟨"/s/b.jpg", "b.jpg", ⟨none, some ⟨2022, 1, 1, 0, 0, 0⟩,
        ⟨2022, 1, 1, 0, 0, 0⟩⟩, 8, true, false, true⟩ =
      ⟨⟨[], [("2022", "2022-01-01")], []⟩, [], 1, 0, 0, 0, 1, 0, []⟩ ∧
    organize_media ⟨false, false, false, false, true, true, []⟩
      [⟨"/s/a.jpg", "a.jpg", ⟨none, some ⟨2022, 1, 1, 0, 0, 0⟩,
        ⟨2022, 1, 1, 0, 0, 0⟩⟩, 7, true, true, true⟩] ⟨[], [], []⟩ = none ∧
    photocatalog_main_exit ⟨true, true, true, true, true, true, []⟩ []
      ⟨[], [], []⟩ = 0 :=
  ⟨C4_error_containment.2.2.1 ⟨false, false, false, true, true, true,
        [("2022", "2022-01-01")]⟩
      ⟨⟨[], [], []⟩, [], 0, 0, 0, 0, 0, 0, []⟩
      ⟨"/s/a.jpg", "a.jpg", ⟨none, some ⟨2022, 1, 1, 0, 0, 0⟩,
        ⟨2022, 1, 1, 0, 0, 0⟩⟩, 7, true, true, true⟩
      "2022-01-01 00:00:00+0000" "a.jpg" 0
      rfl (by decide) (by decide) rfl (by decide) rfl rfl (by decide),
   C4_error_containment.2.2.2.1 ⟨false, false, false, true, true, true, []⟩
      ⟨⟨[], [("2022", "2022-01-01")], []⟩, [], 0, 0, 0, 0, 0, 0, []⟩
      ⟨"/s/b.jpg", "b.jpg", ⟨none, some ⟨2022, 1, 1, 0, 0, 0⟩,
        ⟨2022, 1, 1, 0, 0, 0⟩⟩, 8, true, false, true⟩
      "2022-01-01 00:00:00+0000" "b.jpg" 0
      rfl (by decide) (by decide) rfl (by decide) rfl (by decide) rfl,
   C4_error_containment.2.2.2.2.2.1 ⟨false, false, false, false, true, true, []⟩
      [⟨"/s/a.jpg", "a.jpg", ⟨none, some ⟨2022, 1, 1, 0, 0, 0⟩,
        ⟨2022, 1, 1, 0, 0, 0⟩⟩, 7, true, true, true⟩] ⟨[], [], []⟩ rfl,
   C4_error_containment.2.2.2.2.2.2.2 ⟨true, true, true, true, true, true, []⟩
      [] ⟨[], [], []⟩⟩

/-! ### Claim C7 -/

/-- C7: when a source file's original target name is occupied on disk by a
different-content file, the collision loop tries the suffixed names
stem_1·ext, stem_2·ext, … (counter starting at 1): there is a first index
k ≥ 1 whose candidate is not occupied by different content, every earlier
candidate was, and the loop's addition to `files_renamed` is exactly 1 no
matter how many suffix attempts were needed; in the engine, such a file's
`renamed` counter therefore rises by exactly 1. -/
theorem C7_rename_once :
    (∀ (files : List DestFile) (dir : String × String) (orig : String)
        (h : Nat),
      occDiff files dir orig (pySplitExt orig).1 (pySplitExt orig).2 h 0 →
      ∃ k, 1 ≤ k ∧
        (∀ j, 1 ≤ j →
          candName orig (pySplitExt orig).1 (pySplitExt orig).2 j =
            (pySplitExt orig).1 ++ "_" ++ Nat.repr j ++ (pySplitExt orig).2) ∧
        (∀ j < k,
          occDiff files dir orig (pySplitExt orig).1 (pySplitExt orig).2
            h j) ∧
        ¬ occDiff files dir orig (pySplitExt orig).1 (pySplitExt orig).2
            h k ∧
        collide files dir orig h =
          (match destLookup files dir
              (candName orig (pySplitExt orig).1 (pySplitExt orig).2 k) with
           | none =>
             .fresh (candName orig (pySplitExt orig).1 (pySplitExt orig).2 k)
               1
           | some _ => .dup 1)) ∧
    (∀ (cfg : Config) (st : RunState) (f : SrcFile) (fdt nm : String)
        (rd : Nat),
      supportedName f.name = true →
      get_file_datetime_from_exif f.meta = some fdt →
      f.hashable = true → f.content ∉ st.hashes →
      occDiff st.dest.files (targetDirOf fdt) f.name (pySplitExt f.name).1
        (pySplitExt f.name).2 f.content 0 →
      collide st.dest.files (targetDirOf fdt) f.name f.content =
        .fresh nm rd →
      rd = 1 ∧
      processFile cfg st f =
        dirAndTransfer cfg f (targetDirOf fdt) nm f.content
          { st with scanned := st.scanned + 1,
                    renamed := st.renamed + 1 }) := by
  constructor
  · intro files dir orig h h0
    obtain ⟨k, hall, hnot, hc⟩ := collide_spec files dir orig h
    have hk1 : 1 ≤ k := by
      rcases Nat.eq_zero_or_pos k with hz | hp
      · exact absurd h0 (hz ▸ hnot)
      · exact hp
    refine ⟨k, hk1, ?_, hall, hnot, ?_⟩
    · intro j hj
      unfold candName
      rw [if_neg (by omega)]
    · simp only [if_pos hk1] at hc
      exact hc
  · intro cfg st f fdt nm rd hs hd hh hmem h0 hcoll
    obtain ⟨k, hall, hnot, hc⟩ :=
      collide_spec st.dest.files (targetDirOf fdt) f.name f.content
    have hk1 : 1 ≤ k := by
      rcases Nat.eq_zero_or_pos k with hz | hp
      · exact absurd h0 (hz ▸ hnot)
      · exact hp
    simp only [if_pos hk1] at hc
    rw [hcoll] at hc
    have hrd : rd = 1 := by
      cases hdl : destLookup st.dest.files (targetDirOf fdt)
          (candName f.name (pySplitExt f.name).1 (pySplitExt f.name).2 k) with
      | none =>
        rw [hdl] at hc
        dsimp only at hc
        injection hc with h1 h2
      | some c =>
        rw [hdl] at hc
        dsimp only at hc
        exact CollideRes.noConfusion hc
    subst hrd
    exact ⟨rfl, processFile_fresh hs hd hh hmem hcoll⟩

/-- C7 witness: a source `a.jpg` of content 7 whose target already holds
an `a.jpg` of content 9 gets renamed-counter delta exactly 1 and the
fresh name `a_1.jpg`. -/
theorem C7_rename_once_witness :
    (1 : Nat) = 1 ∧
    processFile ⟨false, false, false, true, true, true, []⟩
      ⟨⟨[⟨("2022", "2022-01-01"), "a.jpg", 9⟩], [("2022", "2022-01-01")], []⟩,
        [], 0, 0, 0, 0, 0, 0, []⟩
      ⟨"/s/a.jpg", "a.jpg", ⟨none, some ⟨2022, 1, 1, 0, 0, 0⟩,
        ⟨2022, 1, 1, 0, 0, 0⟩⟩, 7, true, true, true⟩ =
      dirAndTransfer ⟨false, false, false, true, true, true, []⟩
        ⟨"/s/a.jpg", "a.jpg", ⟨none, some ⟨2022, 1, 1, 0, 0, 0⟩,
          ⟨2022, 1, 1, 0, 0, 0⟩⟩, 7, true, true, true⟩
        (targetDirOf "2022-01-01 00:00:00+0000") "a_1.jpg" 7
        ⟨⟨[⟨("2022", "2022-01-01"), "a.jpg", 9⟩], [("2022", "2022-01-01")], []⟩,
          [], 1, 0, 0, 1, 0, 0, []⟩ :=
  C7_rename_once.2 ⟨false, false, false, true, true, true, []⟩
    ⟨⟨[⟨("2022", "2022-01-01"), "a.jpg", 9⟩], [("2022", "2022-01-01")], []⟩,
      [], 0, 0, 0, 0, 0, 0, []⟩
    ⟨"/s/a.jpg", "a.jpg", ⟨none, some ⟨2022, 1, 1, 0, 0, 0⟩,
      ⟨2022, 1, 1, 0, 0, 0⟩⟩, 7, true, true, true⟩
    "2022-01-01 00:00:00+0000" "a_1.jpg" 1
    (by decide) (by decide) rfl (by decide) ⟨9, rfl, by decide⟩ (by decide)

/-! ### Branch characterizations of the transfer and duplicate steps -/

theorem dupDelete_fields (cfg : Config) (f : SrcFile) (b : Bool)
    (st : RunState) :
    (dupDelete cfg f b st).dest = st.dest ∧
    (dupDelete cfg f b st).hashes = st.hashes ∧
    (dupDelete cfg f b st).scanned = st.scanned ∧
    (dupDelete cfg f b st).transferred = st.transferred ∧
    (dupDelete cfg f b st).skipped = st.skipped ∧
    (dupDelete cfg f b st).renamed = st.renamed ∧
    (dupDelete cfg f b st).errored = st.errored ∧
    (∀ p ∈ st.removedSources, p ∈ (dupDelete cfg f b st).removedSources) ∧
    (cfg.deleteSourceDuplicates = true → cfg.dryRun = false →
      f.removeOk = true → f.path ∈ (dupDelete cfg f b st).removedSources) := by
  unfold dupDelete
  split_ifs with h1 h2 h3
  · exact ⟨rfl, rfl, rfl, rfl, rfl, rfl, rfl,
      fun p hp => List.mem_cons_of_mem _ hp,
      fun _ _ _ => List.mem_cons_self _ _⟩
  · exact ⟨rfl, rfl, rfl, rfl, rfl, rfl, rfl,
      fun p hp => List.mem_cons_of_mem _ hp,
      fun _ _ _ => List.mem_cons_self _ _⟩
  · exact ⟨rfl, rfl, rfl, rfl, rfl, rfl, rfl, fun p hp => hp,
      fun _ _ hrm => absurd hrm h2⟩
  · exact ⟨rfl, rfl, rfl, rfl, rfl, rfl, rfl, fun p hp => hp,
      fun hdel hdry _ => absurd ⟨hdel, by simp [hdry]⟩ h1⟩

theorem dupDelete_dry {cfg : Config} (f : SrcFile) (b : Bool) (st : RunState)
    (hdry : cfg.dryRun = true) : dupDelete cfg f b st = st := by
  unfold dupDelete
  rw [if_neg (by simp [hdry])]

theorem dirAndTransfer_transfer_ok (cfg : Config) (f : SrcFile)
    (dir : String × String) (nm : String) (h : Nat) (st : RunState)
    (hdry : cfg.dryRun = false) (htr : f.transferOk = true)
    (hmk : cfg.mkdirFails = []) (hbl : st.dest.blockers = []) :
    dirAndTransfer cfg f dir nm h st =
      { st with
        dest := ⟨st.dest.files ++ [⟨dir, nm, f.content⟩],
          (if dayExistsFS st.dest dir then st.dest.dirs
           else dir :: st.dest.dirs), st.dest.blockers⟩,
        hashes := h :: st.hashes,
        transferred := st.transferred + 1 } := by
  unfold dirAndTransfer
  by_cases hde : dayExistsFS st.dest dir = true
  · have hdi : dayIsDir st.dest dir = true := by
      unfold dayExistsFS at hde
      rw [hbl] at hde
      simpa using hde
    rw [if_neg (by simp [hde]), if_neg (by simp [hdi])]
    unfold transferStep
    rw [if_pos (by simp [hdry]), if_pos htr, if_pos (show
      (dayExistsFS st.dest dir : Prop) from hde)]
  · have hde' : dayExistsFS st.dest dir = false := by simpa using hde
    rw [if_pos (by simp [hde']), if_pos (by simp [hdry]),
      if_neg (by simp [hmk])]
    unfold transferStep
    rw [if_pos (by simp [hdry]), if_pos htr, if_neg (by simp [hde'])]

theorem dirAndTransfer_dry (cfg : Config) (f : SrcFile)
    (dir : String × String) (nm : String) (h : Nat) (st : RunState)
    (hdry : cfg.dryRun = true) (hbl : st.dest.blockers = []) :
    dirAndTransfer cfg f dir nm h st =
      { st with hashes := h :: st.hashes,
                transferred := st.transferred + 1 } := by
  unfold dirAndTransfer
  by_cases hde : dayExistsFS st.dest dir = true
  · have hdi : dayIsDir st.dest dir = true := by
      unfold dayExistsFS at hde
      rw [hbl] at hde
      simpa using hde
    rw [if_neg (by simp [hde]), if_neg (by simp [hdi])]
    unfold transferStep
    rw [if_neg (by simp [hdry])]
  · have hde' : dayExistsFS st.dest dir = false := by simpa using hde
    rw [if_pos (by simp [hde']), if_neg (by simp [hdry])]
    unfold transferStep
    rw [if_neg (by simp [hdry])]

theorem destLookup_append_none {l1 l2 : List DestFile} {dir : String × String}
    {nm : String} (h1 : destLookup l1 dir nm = none)
    (h2 : destLookup l2 dir nm = none) :
    destLookup (l1 ++ l2) dir nm = none := by
  unfold destLookup at h1 h2 ⊢
  rw [Option.map_eq_none'] at h1 h2 ⊢
  cases hf : (l1 ++ l2).find? (fun g => decide (g.dir = dir ∧ g.name = nm)) with
  | none => rfl
  | some g =>
    have hg := List.find?_some hf
    have hmem := List.mem_of_find?_eq_some hf
    rcases List.mem_append.mp hmem with hm | hm
    · have hsome : (l1.find?
          (fun g => decide (g.dir = dir ∧ g.name = nm))).isSome :=
        List.find?_isSome.mpr ⟨g, hm, hg⟩
      rw [h1] at hsome
      exact absurd hsome (by simp)
    · have hsome : (l2.find?
          (fun g => decide (g.dir = dir ∧ g.name = nm))).isSome :=
        List.find?_isSome.mpr ⟨g, hm, hg⟩
      rw [h2] at hsome
      exact absurd hsome (by simp)

theorem destLookup_singleton_none {e : DestFile} {dir : String × String}
    {nm : String} (h : ¬ (e.dir = dir ∧ e.name = nm)) :
    destLookup [e] dir nm = none := by
  unfold destLookup
  rw [List.find?_cons_of_neg _ (by simpa using h)]
  rfl

theorem seedHashes_real {cfg : Config} (dest0 : Dest)
    (hdry : cfg.dryRun = false) :
    seedHashes cfg dest0 =
      (dest0.files.filter (fun g => supportedName g.name)).map (·.content) := by
  unfold seedHashes
  rw [if_neg (by simp [hdry])]

theorem seedHashes_dry {cfg : Config} (dest0 : Dest)
    (hdry : cfg.dryRun = true) : seedHashes cfg dest0 = [] := by
  unfold seedHashes
  rw [if_pos (by simp [hdry])]

/-! ### Claim C5 -/

theorem foldl_dup_run (cfg : Config) (c : Nat) :
    ∀ (rest : List SrcFile) (st : RunState),
      (∀ f ∈ rest, f.content = c ∧ supportedName f.name = true ∧
        (∃ fdt, get_file_datetime_from_exif f.meta = some fdt) ∧
        f.hashable = true ∧ f.removeOk = true) →
      c ∈ st.hashes →
      (rest.foldl (processFile cfg) st).dest = st.dest ∧
      (rest.foldl (processFile cfg) st).hashes = st.hashes ∧
      (rest.foldl (processFile cfg) st).skipped = st.skipped + rest.length ∧
      (rest.foldl (processFile cfg) st).transferred = st.transferred ∧
      (∀ p ∈ st.removedSources,
        p ∈ (rest.foldl (processFile cfg) st).removedSources) ∧
      (cfg.deleteSourceDuplicates = true → cfg.dryRun = false →
        ∀ f ∈ rest, f.path ∈ (rest.foldl (processFile cfg) st).removedSources)
  | [], st => by
    intro _ _
    exact ⟨rfl, rfl, rfl, rfl, fun p hp => hp, fun _ _ f hf => absurd hf
      (List.not_mem_nil f)⟩
  | f :: fs, st => by
    intro hall hcm
    obtain ⟨hfc, hfs, ⟨fdt, hfd⟩, hfh, hfr⟩ := hall f (List.mem_cons_self f fs)
    have hpf : processFile cfg st f = dupDelete cfg f true
        { st with scanned := st.scanned + 1, skipped := st.skipped + 1 } :=
      processFile_dup_index hfs hfd hfh (by rw [hfc]; exact hcm)
    obtain ⟨hd2, hh2, _, htr2, hsk2, _, _, hrm2, hrmf⟩ :=
      dupDelete_fields cfg f true
        { st with scanned := st.scanned + 1, skipped := st.skipped + 1 }
    rw [List.foldl_cons, hpf]
    obtain ⟨ihd, ihh, ihsk, ihtr, ihrm, ihdel⟩ :=
      foldl_dup_run cfg c fs (dupDelete cfg f true
        { st with scanned := st.scanned + 1, skipped := st.skipped + 1 })
        (fun g hg => hall g (List.mem_cons_of_mem f hg))
        (by rw [hh2]; exact hcm)
    refine ⟨ihd.trans hd2, ihh.trans hh2, ?_, ihtr.trans htr2, ?_, ?_⟩
    · rw [ihsk, hsk2]
      dsimp only
      rw [List.length_cons]
      omega
    · intro p hp
      exact ihrm p (hrm2 p hp)
    · intro hdel hdry g hg
      rcases List.mem_cons.mp hg with hgf | hgfs
      · subst hgf
        exact ihrm g.path (hrmf hdel hdry hfr)
      · exact ihdel hdel hdry g hgfs

/-- C5: in a real run with a clean environment (no directory-create or
blocker interference) where the destination holds no file of the given
content, presenting a transferable file and then any number of further
source files of byte-identical content leaves exactly one file of that
content in the destination; every presented copy except the first counts
as a skipped duplicate, exactly one transfer happens, and in
delete-source-duplicates mode every later copy's source path is
deleted. -/
theorem C5_duplicate_collapse (cfg : Config) (f0 : SrcFile)
    (rest : List SrcFile) (dest0 : Dest) (fdt0 : String)
    (hsrc : cfg.sourceIsDir = true) (hdry : cfg.dryRun = false)
    (hdest : cfg.destIsDir = true) (hmk : cfg.mkdirFails = [])
    (hbl : dest0.blockers = [])
    (hs0 : supportedName f0.name = true)
    (hd0 : get_file_datetime_from_exif f0.meta = some fdt0)
    (hh0 : f0.hashable = true) (ht0 : f0.transferOk = true)
    (hno : ∀ g ∈ dest0.files, g.content ≠ f0.content)
    (hrest : ∀ f ∈ rest, f.content = f0.content ∧
      supportedName f.name = true ∧
      (∃ fdt, get_file_datetime_from_exif f.meta = some fdt) ∧
      f.hashable = true ∧ f.removeOk = true) :
    ∃ stf, organize_media cfg (f0 :: rest) dest0 = some stf ∧
      (stf.dest.files.filter (fun g => g.content = f0.content)).length = 1 ∧
      stf.skipped = rest.length ∧ stf.transferred = 1 ∧
      (cfg.deleteSourceDuplicates = true →
        ∀ f ∈ rest, f.path ∈ stf.removedSources) := by
  have horg : organize_media cfg (f0 :: rest) dest0 =
      some ((f0 :: rest).foldl (processFile cfg)
        ⟨dest0, seedHashes cfg dest0, 0, 0, 0, 0, 0, 0, []⟩) := by
    unfold organize_media
    rw [if_neg (by simp [hsrc]), if_neg (by simp [hdest])]
  have hseed : f0.content ∉ seedHashes cfg dest0 := by
    rw [seedHashes_real dest0 hdry]
    intro hmem
    obtain ⟨g, hg, hgc⟩ := List.mem_map.mp hmem
    exact hno g (List.mem_of_mem_filter hg) hgc
  obtain ⟨k, hall, hnot, hc⟩ :=
    collide_spec dest0.files (targetDirOf fdt0) f0.name f0.content
  have hfresh : ∃ nm rd,
      collide dest0.files (targetDirOf fdt0) f0.name f0.content =
        .fresh nm rd := by
    cases hdl : destLookup dest0.files (targetDirOf fdt0)
        (candName f0.name (pySplitExt f0.name).1 (pySplitExt f0.name).2 k) with
    | none =>
      rw [hdl] at hc
      dsimp only at hc
      exact ⟨_, _, hc⟩
    | some c' =>
      obtain ⟨g, hg, _, _, hgc⟩ := destLookup_some_mem hdl
      have hcc : c' = f0.content := by
        by_contra hne
        exact hnot ⟨c', hdl, hne⟩
      exact absurd (hgc.trans hcc) (hno g hg)
  obtain ⟨nm, rd, hcoll⟩ := hfresh
  have hstep : processFile cfg
      ⟨dest0, seedHashes cfg dest0, 0, 0, 0, 0, 0, 0, []⟩ f0 =
      ⟨⟨dest0.files ++ [⟨targetDirOf fdt0, nm, f0.content⟩],
        (if dayExistsFS dest0 (targetDirOf fdt0) then dest0.dirs
         else targetDirOf fdt0 :: dest0.dirs), dest0.blockers⟩,
       f0.content :: seedHashes cfg dest0, 1, 1, 0, 0 + rd, 0, 0, []⟩ := by
    rw [processFile_fresh hs0 hd0 hh0 hseed hcoll,
      dirAndTransfer_transfer_ok cfg f0 (targetDirOf fdt0) nm f0.content _
        hdry ht0 hmk hbl]
  rw [horg, List.foldl_cons, hstep]
  obtain ⟨hdest1, hhash1, hskip1, htrans1, hsub1, hdel1⟩ :=
    foldl_dup_run cfg f0.content rest
      ⟨⟨dest0.files ++ [⟨targetDirOf fdt0, nm, f0.content⟩],
        (if dayExistsFS dest0 (targetDirOf fdt0) then dest0.dirs
         else targetDirOf fdt0 :: dest0.dirs), dest0.blockers⟩,
       f0.content :: seedHashes cfg dest0, 1, 1, 0, 0 + rd, 0, 0, []⟩
      hrest (List.mem_cons_self _ _)
  refine ⟨_, rfl, ?_, ?_, ?_, ?_⟩
  · rw [hdest1]
    dsimp only
    rw [List.filter_append]
    have hemp : dest0.files.filter
        (fun g => decide (g.content = f0.content)) = [] := by
      rw [List.filter_eq_nil]
      intro g hg
      simp [hno g hg]
    rw [hemp]
    simp
  · rw [hskip1]
    dsimp only
    omega
  · rw [htrans1]
  · intro hdel f hf
    exact hdel1 hdel hdry f hf

/-- C5 witness: one transferable `a.jpg` of content 7 followed by a
second source copy leaves one destination file of content 7, one skipped
duplicate, one transfer, and (delete mode) the second path removed. -/
theorem C5_duplicate_collapse_witness :
    ∃ stf, organize_media ⟨true, false, false, true, true, true, []⟩
      [⟨"/s/a.jpg", "a.jpg", ⟨none, some ⟨2022, 1, 1, 0, 0, 0⟩,
        ⟨2022, 1, 1, 0, 0, 0⟩⟩, 7, true, true, true⟩,
       ⟨"/s/b.jpg", "b.jpg", ⟨none, some ⟨2022, 1, 1, 0, 0, 0⟩,
        ⟨2022, 1, 1, 0, 0, 0⟩⟩, 7, true, true, true⟩] ⟨[], [], []⟩ =
        some stf ∧
      (stf.dest.files.filter (fun g => g.content = 7)).length = 1 ∧
      stf.skipped = 1 ∧ stf.transferred = 1 ∧
      (true = true → ∀ f ∈ [(⟨"/s/b.jpg", "b.jpg",
        ⟨none, some ⟨2022, 1, 1, 0, 0, 0⟩, ⟨2022, 1, 1, 0, 0, 0⟩⟩, 7, true,
        true, true⟩ : SrcFile)], f.path ∈ stf.removedSources) :=
  C5_duplicate_collapse ⟨true, false, false, true, true, true, []⟩
    ⟨"/s/a.jpg", "a.jpg", ⟨none, some ⟨2022, 1, 1, 0, 0, 0⟩,
      ⟨2022, 1, 1, 0, 0, 0⟩⟩, 7, true, true, true⟩
    [⟨"/s/b.jpg", "b.jpg", ⟨none, some ⟨2022, 1, 1, 0, 0, 0⟩,
      ⟨2022, 1, 1, 0, 0, 0⟩⟩, 7, true, true, true⟩]
    ⟨[], [], []⟩ "2022-01-01 00:00:00+0000"
    rfl rfl rfl rfl rfl (by decide) (by decide) rfl rfl
    (by intro g hg; exact absurd hg (List.not_mem_nil g))
    (by
      intro f hf
      obtain rfl := List.mem_singleton.mp hf
      exact ⟨rfl, by decide, ⟨"2022-01-01 00:00:00+0000", by decide⟩,
        rfl, rfl⟩)

/-! ### Claim C1 -/

/-- C1 counterexample: on identical input (one source `a.jpg` of content
7, a destination already holding a supported `b.jpg` of the same content
in another day directory) the real run seeds the digest index from the
destination walk and skips the source as a duplicate (transferred 0,
skipped 1), while the dry run skips the destination walk entirely and
reports a transfer (transferred 1, skipped 0) — the counters differ. -/
theorem C1_counterexample :
    organize_media ⟨false, false, false, true, true, true, []⟩
      [⟨"/s/a.jpg", "a.jpg", ⟨none, some ⟨2022, 1, 1, 0, 0, 0⟩,
        ⟨2022, 1, 1, 0, 0, 0⟩⟩, 7, true, true, true⟩]
      ⟨[⟨("2021", "2021-06-05"), "b.jpg", 7⟩], [("2021", "2021-06-05")], []⟩ =
      some ⟨⟨[⟨("2021", "2021-06-05"), "b.jpg", 7⟩],
        [("2021", "2021-06-05")], []⟩, [7], 1, 0, 1, 0, 0, 0, []⟩ ∧
    organize_media ⟨false, true, false, true, true, true, []⟩
      [⟨"/s/a.jpg", "a.jpg", ⟨none, some ⟨2022, 1, 1, 0, 0, 0⟩,
        ⟨2022, 1, 1, 0, 0, 0⟩⟩, 7, true, true, true⟩]
      ⟨[⟨("2021", "2021-06-05"), "b.jpg", 7⟩], [("2021", "2021-06-05")], []⟩ =
      some ⟨⟨[⟨("2021", "2021-06-05"), "b.jpg", 7⟩],
        [("2021", "2021-06-05")], []⟩, [7], 1, 1, 0, 0, 0, 0, []⟩ ∧
    ((⟨⟨[], [], []⟩, [], 1, 0, 1, 0, 0, 0, []⟩ : RunState).transferred ≠
      (⟨⟨[], [], []⟩, [], 1, 1, 0, 0, 0, 0, []⟩ : RunState).transferred) :=
  ⟨rfl, rfl, by decide⟩

theorem tdir_of_some {f : SrcFile} {fdt : String}
    (hd : get_file_datetime_from_exif f.meta = some fdt) :
    tdir f = targetDirOf fdt := by
  unfold tdir fdtOf
  rw [hd]
  rfl

theorem C1_fold_inv (cfg : Config) (dest0 : Dest) (seed0 : List Nat)
    (hdryR : cfg.dryRun = false) (hmk : cfg.mkdirFails = [])
    (hbl0 : dest0.blockers = []) :
    ∀ (files : List SrcFile) (stR stD : RunState),
      stR.hashes = stD.hashes ++ seed0 →
      stD.dest = dest0 →
      stR.dest.blockers = [] →
      stR.scanned = stD.scanned →
      stR.transferred = stD.transferred →
      stR.skipped = stD.skipped →
      stR.renamed = stD.renamed →
      stR.errored = stD.errored →
      (∀ f ∈ files, f.transferOk = true) →
      (∀ f ∈ files, f.content ∉ seed0) →
      (∀ f ∈ files, destLookup stR.dest.files (tdir f) f.name = none) →
      (∀ f ∈ files, destLookup dest0.files (tdir f) f.name = none) →
      files.Pairwise (fun f g => ¬ (tdir f = tdir g ∧ f.name = g.name)) →
      ((files.foldl (processFile cfg) stR).scanned =
        (files.foldl (processFile { cfg with dryRun := true }) stD).scanned ∧
       (files.foldl (processFile cfg) stR).transferred =
        (files.foldl (processFile { cfg with dryRun := true })
          stD).transferred ∧
       (files.foldl (processFile cfg) stR).skipped =
        (files.foldl (processFile { cfg with dryRun := true }) stD).skipped ∧
       (files.foldl (processFile cfg) stR).renamed =
        (files.foldl (processFile { cfg with dryRun := true }) stD).renamed ∧
       (files.foldl (processFile cfg) stR).errored =
        (files.foldl (processFile { cfg with dryRun := true }) stD).errored ∧
       (files.foldl (processFile { cfg with dryRun := true }) stD).dest =
        dest0 ∧
       (files.foldl (processFile { cfg with dryRun := true })
          stD).removedSources = stD.removedSources)
  | [], stR, stD => by
    intro hB hC hD h1 h2 h3 h4 h5 _ _ _ _ _
    exact ⟨h1, h2, h3, h4, h5, hC, rfl⟩
  | f :: fs, stR, stD => by
    intro hB hC hD h1 h2 h3 h4 h5 hTO hE hF hG hPW
    rw [List.foldl_cons, List.foldl_cons]
    obtain ⟨hpwHead, hpwTail⟩ := List.pairwise_cons.mp hPW
    by_cases hs : supportedName f.name = false
    · rw [processFile_unsupported hs, processFile_unsupported hs]
      exact C1_fold_inv cfg dest0 seed0 hdryR hmk hbl0 fs stR stD hB hC hD
        h1 h2 h3 h4 h5 (fun g hg => hTO g (List.mem_cons_of_mem f hg))
        (fun g hg => hE g (List.mem_cons_of_mem f hg))
        (fun g hg => hF g (List.mem_cons_of_mem f hg))
        (fun g hg => hG g (List.mem_cons_of_mem f hg)) hpwTail
    · have hs' : supportedName f.name = true := by simpa using hs
      cases hd : get_file_datetime_from_exif f.meta with
      | none =>
        rw [processFile_dateless hs' hd, processFile_dateless hs' hd]
        exact C1_fold_inv cfg dest0 seed0 hdryR hmk hbl0 fs
          { stR with scanned := stR.scanned + 1, errored := stR.errored + 1 }
          { stD with scanned := stD.scanned + 1, errored := stD.errored + 1 }
          hB hC hD (by dsimp only; omega) (by dsimp only; omega)
          (by dsimp only; omega) (by dsimp only; omega) (by dsimp only; omega)
          (fun g hg => hTO g (List.mem_cons_of_mem f hg))
          (fun g hg => hE g (List.mem_cons_of_mem f hg))
          (fun g hg => hF g (List.mem_cons_of_mem f hg))
          (fun g hg => hG g (List.mem_cons_of_mem f hg)) hpwTail
      | some fdt =>
        have htd := tdir_of_some hd
        by_cases hh : f.hashable = false
        · rw [processFile_unhashable hs' hd hh, processFile_unhashable hs' hd hh]
          exact C1_fold_inv cfg dest0 seed0 hdryR hmk hbl0 fs
            { stR with scanned := stR.scanned + 1,
                       errored := stR.errored + 1 }
            { stD with scanned := stD.scanned + 1,
                       errored := stD.errored + 1 }
            hB hC hD (by dsimp only; omega) (by dsimp only; omega)
            (by dsimp only; omega) (by dsimp only; omega)
            (by dsimp only; omega)
            (fun g hg => hTO g (List.mem_cons_of_mem f hg))
            (fun g hg => hE g (List.mem_cons_of_mem f hg))
            (fun g hg => hF g (List.mem_cons_of_mem f hg))
            (fun g hg => hG g (List.mem_cons_of_mem f hg)) hpwTail
        · have hh' : f.hashable = true := by simpa using hh
          by_cases hm : f.content ∈ stR.hashes
          · have hmD : f.content ∈ stD.hashes := by
              rw [hB] at hm
              rcases List.mem_append.mp hm with hx | hx
              · exact hx
              · exact absurd hx (hE f (List.mem_cons_self f fs))
            rw [processFile_dup_index hs' hd hh' hm,
              processFile_dup_index hs' hd hh' hmD,
              @dupDelete_dry { cfg with dryRun := true } f true
                { stD with scanned := stD.scanned + 1,
                           skipped := stD.skipped + 1 } rfl]
            obtain ⟨hd2, hh2, hsc2, htr2, hsk2, hrn2, her2, _, _⟩ :=
              dupDelete_fields cfg f true
                { stR with scanned := stR.scanned + 1,
                           skipped := stR.skipped + 1 }
            exact C1_fold_inv cfg dest0 seed0 hdryR hmk hbl0 fs
              (dupDelete cfg f true
                { stR with scanned := stR.scanned + 1,
                           skipped := stR.skipped + 1 })
              { stD with scanned := stD.scanned + 1,
                         skipped := stD.skipped + 1 }
              (by rw [hh2]; exact hB) (by exact hC) (by rw [hd2]; exact hD)
              (by rw [hsc2]; dsimp only; omega)
              (by rw [htr2]; dsimp only; omega)
              (by rw [hsk2]; dsimp only; omega)
              (by rw [hrn2]; dsimp only; omega)
              (by rw [her2]; dsimp only; omega)
              (fun g hg => hTO g (List.mem_cons_of_mem f hg))
              (fun g hg => hE g (List.mem_cons_of_mem f hg))
              (by
                intro g hg
                rw [hd2]
                exact hF g (List.mem_cons_of_mem f hg))
              (fun g hg => hG g (List.mem_cons_of_mem f hg)) hpwTail
          · have hmD : f.content ∉ stD.hashes := fun hmem =>
              hm (by rw [hB]; exact List.mem_append_left _ hmem)
            have hcollR : collide stR.dest.files (targetDirOf fdt) f.name
                f.content = .fresh f.name 0 :=
              collide_free (by
                rw [← htd]
                exact hF f (List.mem_cons_self f fs))
            have hcollD : collide stD.dest.files (targetDirOf fdt) f.name
                f.content = .fresh f.name 0 :=
              collide_free (by
                rw [hC, ← htd]
                exact hG f (List.mem_cons_self f fs))
            have hstepR : processFile cfg stR f =
                ⟨⟨stR.dest.files ++
                    [⟨targetDirOf fdt, f.name, f.content⟩],
                  (if dayExistsFS stR.dest (targetDirOf fdt) then
                    stR.dest.dirs
                   else targetDirOf fdt :: stR.dest.dirs),
                  stR.dest.blockers⟩,
                 f.content :: stR.hashes, stR.scanned + 1,
                 stR.transferred + 1, stR.skipped, stR.renamed + 0,
                 stR.errored, stR.dupsRemoved, stR.removedSources⟩ := by
              rw [processFile_fresh hs' hd hh' hm hcollR,
                dirAndTransfer_transfer_ok cfg f (targetDirOf fdt) f.name
                  f.content _ hdryR (hTO f (List.mem_cons_self f fs)) hmk
                  (by exact hD)]
            have hstepD : processFile { cfg with dryRun := true } stD f =
                ⟨stD.dest, f.content :: stD.hashes, stD.scanned + 1,
                 stD.transferred + 1, stD.skipped, stD.renamed + 0,
                 stD.errored, stD.dupsRemoved, stD.removedSources⟩ := by
              rw [processFile_fresh hs' hd hh' hmD hcollD,
                dirAndTransfer_dry _ f (targetDirOf fdt) f.name f.content _
                  rfl (by dsimp only; rw [hC]; exact hbl0)]
            rw [hstepR, hstepD]
            exact C1_fold_inv cfg dest0 seed0 hdryR hmk hbl0 fs
              ⟨⟨stR.dest.files ++ [⟨targetDirOf fdt, f.name, f.content⟩],
                (if dayExistsFS stR.dest (targetDirOf fdt) then stR.dest.dirs
                 else targetDirOf fdt :: stR.dest.dirs), stR.dest.blockers⟩,
               f.content :: stR.hashes, stR.scanned + 1, stR.transferred + 1,
               stR.skipped, stR.renamed + 0, stR.errored, stR.dupsRemoved,
               stR.removedSources⟩
              ⟨stD.dest, f.content :: stD.hashes, stD.scanned + 1,
               stD.transferred + 1, stD.skipped, stD.renamed + 0, stD.errored,
               stD.dupsRemoved, stD.removedSources⟩
              (by dsimp only; rw [List.cons_append, hB]) (by exact hC)
              (by exact hD)
              (by dsimp only; omega) (by dsimp only; omega)
              (by dsimp only; omega) (by dsimp only; omega)
              (by dsimp only; omega)
              (fun g hg => hTO g (List.mem_cons_of_mem f hg))
              (fun g hg => hE g (List.mem_cons_of_mem f hg))
              (by
                intro g hg
                dsimp only
                exact destLookup_append_none
                  (hF g (List.mem_cons_of_mem f hg))
                  (destLookup_singleton_none (fun hcon =>
                    hpwHead g hg ⟨htd.trans hcon.1, hcon.2⟩)))
              (fun g hg => hG g (List.mem_cons_of_mem f hg)) hpwTail

/-- C1: the claim fails in general (see the counterexample: the dry run
neither seeds the duplicate index from the destination walk nor simulates
its own placements on the destination tree), but under a clean
environment — real-mode flags structurally fine, no mkdir failures or
blockers, every source file transferable, no source content already among
the supported destination contents, no source target path occupied in the
destination, and pairwise-distinct source target paths — the dry run and
the real run report identical scanned, transferred, skipped, renamed and
errored counters, and the dry run performs no filesystem mutation: its
final destination tree is the input tree and it removes no source file. -/
theorem C1_dry_run_parity (cfg : Config) (files : List SrcFile) (dest0 : Dest)
    (hsrc : cfg.sourceIsDir = true) (hdry : cfg.dryRun = false)
    (hdest : cfg.destIsDir = true) (hmk : cfg.mkdirFails = [])
    (hbl : dest0.blockers = [])
    (hTO : ∀ f ∈ files, f.transferOk = true)
    (hE : ∀ f ∈ files, ∀ g ∈ dest0.files, supportedName g.name = true →
      g.content ≠ f.content)
    (hG : ∀ f ∈ files, destLookup dest0.files (tdir f) f.name = none)
    (hPW : files.Pairwise (fun f g => ¬ (tdir f = tdir g ∧ f.name = g.name))) :
    ∃ stR stD,
      organize_media cfg files dest0 = some stR ∧
      organize_media { cfg with dryRun := true } files dest0 = some stD ∧
      stR.scanned = stD.scanned ∧ stR.transferred = stD.transferred ∧
      stR.skipped = stD.skipped ∧ stR.renamed = stD.renamed ∧
      stR.errored = stD.errored ∧
      stD.dest = dest0 ∧ stD.removedSources = [] := by
  have horgR : organize_media cfg files dest0 =
      some (files.foldl (processFile cfg)
        ⟨dest0, seedHashes cfg dest0, 0, 0, 0, 0, 0, 0, []⟩) := by
    unfold organize_media
    rw [if_neg (by simp [hsrc]), if_neg (by simp [hdest])]
  have horgD : organize_media { cfg with dryRun := true } files dest0 =
      some (files.foldl (processFile { cfg with dryRun := true })
        ⟨dest0, seedHashes { cfg with dryRun := true } dest0,
          0, 0, 0, 0, 0, 0, []⟩) := by
    unfold organize_media
    rw [if_neg (by simp [hsrc]), if_neg (by simp)]
  have hseedD : seedHashes { cfg with dryRun := true } dest0 = [] :=
    seedHashes_dry dest0 rfl
  rw [hseedD] at horgD
  obtain ⟨hsc, htr, hsk, hrn, her, hdestD, hrm⟩ :=
    C1_fold_inv cfg dest0 (seedHashes cfg dest0) hdry hmk hbl files
      ⟨dest0, seedHashes cfg dest0, 0, 0, 0, 0, 0, 0, []⟩
      ⟨dest0, [], 0, 0, 0, 0, 0, 0, []⟩
      rfl rfl hbl rfl rfl rfl rfl rfl hTO
      (fun f hf => by
        rw [seedHashes_real dest0 hdry]
        intro hmem
        obtain ⟨g, hg, hgc⟩ := List.mem_map.mp hmem
        exact hE f hf g (List.mem_of_mem_filter hg)
          (by simpa using List.of_mem_filter hg) hgc)
      (fun f hf => hG f hf) hG hPW
  exact ⟨_, _, horgR, horgD, hsc, htr, hsk, hrn, her, hdestD, hrm⟩

/-- C1 witness: one supported transferable source file against an empty
destination — both runs report counters (1, 1, 0, 0, 0) and the dry run
leaves the destination untouched. -/
theorem C1_dry_run_parity_witness :
    ∃ stR stD,
      organize_media ⟨false, false, false, true, true, true, []⟩
        [⟨"/s/a.jpg", "a.jpg", ⟨none, some ⟨2022, 1, 1, 0, 0, 0⟩,
          ⟨2022, 1, 1, 0, 0, 0⟩⟩, 7, true, true, true⟩] ⟨[], [], []⟩ =
        some stR ∧
      organize_media { (⟨false, false, false, true, true, true, []⟩ : Config)
          with dryRun := true }
        [⟨"/s/a.jpg", "a.jpg", ⟨none, some ⟨2022, 1, 1, 0, 0, 0⟩,
          ⟨2022, 1, 1, 0, 0, 0⟩⟩, 7, true, true, true⟩] ⟨[], [], []⟩ =
        some stD ∧
      stR.scanned = stD.scanned ∧ stR.transferred = stD.transferred ∧
      stR.skipped = stD.skipped ∧ stR.renamed = stD.renamed ∧
      stR.errored = stD.errored ∧
      stD.dest = ⟨[], [], []⟩ ∧ stD.removedSources = [] :=
  C1_dry_run_parity ⟨false, false, false, true, true, true, []⟩
    [⟨"/s/a.jpg", "a.jpg", ⟨none, some ⟨2022, 1, 1, 0, 0, 0⟩,
      ⟨2022, 1, 1, 0, 0, 0⟩⟩, 7, true, true, true⟩] ⟨[], [], []⟩
    rfl rfl rfl rfl rfl
    (by
      intro f hf
      obtain rfl := List.mem_singleton.mp hf
      rfl)
    (by
      intro f hf g hg
      exact absurd hg (List.not_mem_nil g))
    (by
      intro f hf
      obtain rfl := List.mem_singleton.mp hf
      rfl)
    (List.pairwise_singleton _ _)

/-! ### Claim C9 -/

namespace TripHistory

theorem except_ok_bind {ε α β : Type} (a : α) (f : α → Except ε β) :
    (Except.ok a >>= f : Except ε β) = f a := rfl

theorem linkNameTaken_extend (ts : TargetFS)
    (new : List ((String × String) × String × (String × String × String)))
    (dir : String × String) (nm : String) :
    linkNameTaken { ts with links := ts.links ++ new } dir nm =
      (linkNameTaken ts dir nm ||
        new.any (fun e => decide (e.1 = dir ∧ e.2.1 = nm))) := by
  unfold linkNameTaken
  exact List.any_append

theorem photoStep_run (w : TripWorld) (dir : String × String)
    (yr dayNm : String) (hlf : w.linkFails = []) :
    ∀ (photos : List PhotoEntry) (ts : TargetFS),
      (∀ e ∈ photoLinks dir yr dayNm photos,
        linkNameTaken ts dir e.2.1 = false) →
      ((photoLinks dir yr dayNm photos).map (fun e => e.2.1)).Nodup →
      photos.foldl (photoStep w false dir yr dayNm) ts =
        { ts with links := ts.links ++ photoLinks dir yr dayNm photos }
  | [], ts => by
    intro _ _
    rw [List.foldl_nil]
    show ts = { ts with links := ts.links ++ [] }
    rw [List.append_nil]
  | p :: ps, ts => by
    intro hfree hnd
    rw [List.foldl_cons]
    by_cases hp : (p.regular && !p.isLink) = true
    · have hplcons : photoLinks dir yr dayNm (p :: ps) =
          (dir, p.name, (yr, dayNm, p.name)) :: photoLinks dir yr dayNm ps := by
        unfold photoLinks
        rw [List.filter_cons_of_pos (by exact hp)]
        rfl
      have hfree0 : linkNameTaken ts dir p.name = false :=
        hfree _ (by rw [hplcons]; exact List.mem_cons_self _ _)
      have hstep : photoStep w false dir yr dayNm ts p =
          { ts with links :=
            ts.links ++ [(dir, p.name, (yr, dayNm, p.name))] } := by
        unfold photoStep
        rw [if_pos hp, if_neg (by simp [hfree0]), if_neg (by simp),
          if_neg (by simp [hlf])]
      have hnd' := hnd
      rw [hplcons, List.map_cons, List.nodup_cons] at hnd'
      rw [hstep, photoStep_run w dir yr dayNm hlf ps
        { ts with links := ts.links ++ [(dir, p.name, (yr, dayNm, p.name))] }
        (fun e he => by
          rw [linkNameTaken_extend,
            hfree e (by rw [hplcons]; exact List.mem_cons_of_mem _ he),
            Bool.false_or]
          have hne : e.2.1 ≠ p.name := fun heq =>
            hnd'.1 (heq ▸ List.mem_map_of_mem (fun e => e.2.1) he)
          simp [Ne.symm hne])
        hnd'.2]
      rw [hplcons, List.append_assoc]
      rfl
    · have hplcons : photoLinks dir yr dayNm (p :: ps) =
          photoLinks dir yr dayNm ps := by
        unfold photoLinks
        rw [List.filter_cons_of_neg (by exact hp)]
      have hstep : photoStep w false dir yr dayNm ts p = ts := by
        unfold photoStep
        rw [if_neg hp]
      rw [hstep, hplcons]
      exact photoStep_run w dir yr dayNm hlf ps ts
        (fun e he => hfree e (by rw [hplcons]; exact he))
        (by rw [hplcons] at hnd; exact hnd)

theorem dayStep_run (w : TripWorld) (dir : String × String)
    (sd ed : PyDateTime) (yr : String) (hlf : w.linkFails = [])
    (d : DayEntry) (ts : TargetFS)
    (hparse : d.isDir = true → dayRegex d.name = true →
      ∃ pd, parse_date d.name = some pd)
    (hfree : ∀ e ∈ dayLinks dir sd ed yr d,
      linkNameTaken ts dir e.2.1 = false)
    (hnd : ((dayLinks dir sd ed yr d).map (fun e => e.2.1)).Nodup) :
    dayStep w false dir sd ed yr ts d =
      .ok { ts with links := ts.links ++ dayLinks dir sd ed yr d } := by
  unfold dayStep
  by_cases hdd : (d.isDir && dayRegex d.name) = true
  · have hdd' : d.isDir = true ∧ dayRegex d.name = true := by simpa using hdd
    obtain ⟨pd, hpd⟩ := hparse hdd'.1 hdd'.2
    rw [if_pos hdd, hpd]
    dsimp only
    have hdm : dayMatches sd ed d = (dateLE sd pd && dateLE pd ed) := by
      unfold dayMatches
      rw [hpd, hdd]
      rfl
    by_cases hrange : (dateLE sd pd && dateLE pd ed) = true
    · have hdl : dayLinks dir sd ed yr d =
          photoLinks dir yr d.name d.photos := by
        unfold dayLinks
        rw [hdm, if_pos hrange]
      rw [if_pos hrange, photoStep_run w dir yr d.name hlf d.photos ts
        (fun e he => hfree e (by rw [hdl]; exact he))
        (by rw [hdl] at hnd; exact hnd), hdl]
    · have hdl : dayLinks dir sd ed yr d = [] := by
        unfold dayLinks
        rw [hdm, if_neg hrange]
      rw [if_neg hrange, hdl, List.append_nil]
  · have hA : (d.isDir && dayRegex d.name) = false := by simpa using hdd
    have hdl : dayLinks dir sd ed yr d = [] := by
      unfold dayLinks
      have hdm0 : dayMatches sd ed d = false := by
        unfold dayMatches
        rw [hA]
        rfl
      rw [hdm0, if_neg (by simp)]
    rw [if_neg hdd, hdl, List.append_nil]

theorem daysFold_run (w : TripWorld) (dir : String × String)
    (sd ed : PyDateTime) (yr : String) (hlf : w.linkFails = []) :
    ∀ (days : List DayEntry) (ts : TargetFS),
      (∀ d ∈ days, d.isDir = true → dayRegex d.name = true →
        ∃ pd, parse_date d.name = some pd) →
      (∀ e ∈ days.bind (dayLinks dir sd ed yr),
        linkNameTaken ts dir e.2.1 = false) →
      ((days.bind (dayLinks dir sd ed yr)).map (fun e => e.2.1)).Nodup →
      days.foldlM (fun ts d => dayStep w false dir sd ed yr ts d) ts =
        .ok { ts with links :=
          ts.links ++ days.bind (dayLinks dir sd ed yr) }
  | [], ts => by
    intro _ _ _
    rw [List.foldlM_nil]
    show pure ts = Except.ok { ts with links := ts.links ++ [] }
    rw [List.append_nil]
    rfl
  | d :: ds, ts => by
    intro hparse hfree hnd
    have hbind : (d :: ds).bind (dayLinks dir sd ed yr) =
        dayLinks dir sd ed yr d ++ ds.bind (dayLinks dir sd ed yr) :=
      List.cons_bind _ _ _
    have hnd' := hnd
    rw [hbind, List.map_append] at hnd'
    obtain ⟨hnd1, hnd2, hdisj⟩ := List.nodup_append.mp hnd'
    rw [List.foldlM_cons,
      dayStep_run w dir sd ed yr hlf d ts (hparse d (List.mem_cons_self d ds))
        (fun e he => hfree e (by rw [hbind]; exact List.mem_append_left _ he))
        hnd1,
      except_ok_bind,
      daysFold_run w dir sd ed yr hlf ds
        { ts with links := ts.links ++ dayLinks dir sd ed yr d }
        (fun g hg => hparse g (List.mem_cons_of_mem d hg))
        (fun e he => by
          rw [linkNameTaken_extend,
            hfree e (by rw [hbind]; exact List.mem_append_right _ he),
            Bool.false_or, List.any_eq_false]
          intro x hx
          simp only [decide_eq_true_eq, not_and]
          intro _ hxe
          exact hdisj (hxe ▸ List.mem_map_of_mem (fun e => e.2.1) hx)
            (List.mem_map_of_mem (fun e => e.2.1) he))
        hnd2,
      hbind, List.append_assoc]

theorem yearStep_run (w : TripWorld) (dir : String × String)
    (sd ed : PyDateTime) (hlf : w.linkFails = []) (y : YearEntry)
    (ts : TargetFS)
    (hparse : ∀ d ∈ y.days, d.isDir = true → dayRegex d.name = true →
      ∃ pd, parse_date d.name = some pd)
    (hfree : ∀ e ∈ yearLinks dir sd ed y, linkNameTaken ts dir e.2.1 = false)
    (hnd : ((yearLinks dir sd ed y).map (fun e => e.2.1)).Nodup) :
    yearStep w false dir sd ed ts y =
      .ok { ts with links := ts.links ++ yearLinks dir sd ed y } := by
  unfold yearStep
  by_cases hy : (y.isDir && yearRegex y.name) = true
  · have hyl : yearLinks dir sd ed y =
        y.days.bind (dayLinks dir sd ed y.name) := by
      unfold yearLinks
      rw [if_pos hy]
    rw [if_pos hy, daysFold_run w dir sd ed y.name hlf y.days ts hparse
      (fun e he => hfree e (by rw [hyl]; exact he))
      (by rw [hyl] at hnd; exact hnd), hyl]
  · have hyl : yearLinks dir sd ed y = [] := by
      unfold yearLinks
      rw [if_neg hy]
    rw [if_neg hy, hyl, List.append_nil]

theorem treeFold_run (w : TripWorld) (dir : String × String)
    (sd ed : PyDateTime) (hlf : w.linkFails = []) :
    ∀ (tree : List YearEntry) (ts : TargetFS),
      (∀ y ∈ tree, ∀ d ∈ y.days, d.isDir = true → dayRegex d.name = true →
        ∃ pd, parse_date d.name = some pd) →
      (∀ e ∈ treeLinks dir sd ed tree, linkNameTaken ts dir e.2.1 = false) →
      ((treeLinks dir sd ed tree).map (fun e => e.2.1)).Nodup →
      tree.foldlM (yearStep w false dir sd ed) ts =
        .ok { ts with links := ts.links ++ treeLinks dir sd ed tree }
  | [], ts => by
    intro _ _ _
    rw [List.foldlM_nil]
    show pure ts = Except.ok { ts with links := ts.links ++ [] }
    rw [List.append_nil]
    rfl
  | y :: ys, ts => by
    intro hparse hfree hnd
    have hbind : treeLinks dir sd ed (y :: ys) =
        yearLinks dir sd ed y ++ treeLinks dir sd ed ys := by
      unfold treeLinks
      exact List.cons_bind _ _ _
    have hnd' := hnd
    rw [hbind, List.map_append] at hnd'
    obtain ⟨hnd1, hnd2, hdisj⟩ := List.nodup_append.mp hnd'
    rw [List.foldlM_cons,
      yearStep_run w dir sd ed hlf y ts (hparse y (List.mem_cons_self y ys))
        (fun e he => hfree e (by rw [hbind]; exact List.mem_append_left _ he))
        hnd1,
      except_ok_bind,
      treeFold_run w dir sd ed hlf ys
        { ts with links := ts.links ++ yearLinks dir sd ed y }
        (fun g hg => hparse g (List.mem_cons_of_mem y hg))
        (fun e he => by
          rw [linkNameTaken_extend,
            hfree e (by rw [hbind]; exact List.mem_append_right _ he),
            Bool.false_or, List.any_eq_false]
          intro x hx
          simp only [decide_eq_true_eq, not_and]
          intro _ hxe
          exact hdisj (hxe ▸ List.mem_map_of_mem (fun e => e.2.1) hx)
            (List.mem_map_of_mem (fun e => e.2.1) he))
        hnd2,
      hbind, List.append_assoc]

/-- C9 counterexample: a trip spanning 2023-07-15..16 over two matching
day directories that each hold a regular non-symlink `a.jpg` produces a
single symlink — the second file's link name already exists in the trip
directory and is skipped, so not every in-range regular file gets a
link. -/
theorem C9_counterexample :
    process_trips_from_config_dict [⟨"T", "2023-07-15", "2023-07-16"⟩]
      ⟨true, [], []⟩
      [⟨"2023", true, [⟨"2023-07-15", true, [⟨"a.jpg", true, false⟩]⟩,
        ⟨"2023-07-16", true, [⟨"a.jpg", true, false⟩]⟩]⟩] false ⟨[], []⟩ =
      .ok ⟨[("2023", "T")],
        [(("2023", "T"), "a.jpg", ("2023", "2023-07-15", "a.jpg"))]⟩ ∧
    (("2023", "T"), "a.jpg", ("2023", "2023-07-16", "a.jpg")) ∉
      [(("2023", "T"), "a.jpg", ("2023", "2023-07-15", "a.jpg"))] :=
  ⟨rfl, by decide⟩

/-- C9: the claim fails when two in-range files share a basename (see the
counterexample: the later file is skipped because the link name is already
taken), but for a single parseable trip over a source tree whose
regex-matching day directory names all parse and whose in-range regular
non-symlink files have pairwise-distinct basenames, a real run with a
creatable target root, no trip-directory mkdir failure and no symlink
failures creates the trip directory `(start_date[:4], sanitized name)` and
one link for every such file. -/
theorem C9_trip_linking (trip : TripEntry) (w : TripWorld)
    (tree : List YearEntry) (sd ed : PyDateTime)
    (hsd : parse_date trip.startDate = some sd)
    (hed : parse_date trip.endDate = some ed)
    (hroot : w.rootMkdirOk = true)
    (hmk : tripDirOf trip ∉ w.tripMkdirFails)
    (hlf : w.linkFails = [])
    (hparse : ∀ y ∈ tree, ∀ d ∈ y.days, d.isDir = true →
      dayRegex d.name = true → ∃ pd, parse_date d.name = some pd)
    (hnd : ((treeLinks (tripDirOf trip) sd ed tree).map
      (fun e => e.2.1)).Nodup) :
    process_trips_from_config_dict [trip] w tree false ⟨[], []⟩ =
      .ok ⟨[tripDirOf trip], treeLinks (tripDirOf trip) sd ed tree⟩ ∧
    (∀ y ∈ tree, y.isDir = true → yearRegex y.name = true →
      ∀ d ∈ y.days, dayMatches sd ed d = true →
      ∀ p ∈ d.photos, p.regular = true → p.isLink = false →
      (tripDirOf trip, p.name, (y.name, d.name, p.name)) ∈
        treeLinks (tripDirOf trip) sd ed tree) := by
  constructor
  · have htrip : tripStep w tree false ⟨[], []⟩ trip =
        .ok ⟨[tripDirOf trip],
          treeLinks (tripDirOf trip) sd ed tree⟩ := by
      unfold tripStep
      rw [hsd, hed]
      dsimp only
      rw [if_neg (by simp), if_neg hmk, if_neg (by simp),
        treeFold_run w (tripDirOf trip) sd ed hlf tree
          { (⟨[], []⟩ : TargetFS) with
            tripDirs := ([] : List (String × String)) ++ [tripDirOf trip] }
          hparse (fun e he => rfl) hnd]
      rfl
    unfold process_trips_from_config_dict
    rw [if_neg (by simp [hroot]), List.foldlM_cons, htrip, except_ok_bind,
      List.foldlM_nil]
    rfl
  · intro y hy hyd hyr d hd hdm p hp hpr hpl
    unfold treeLinks
    refine List.mem_bind.mpr ⟨y, hy, ?_⟩
    unfold yearLinks
    rw [if_pos (by simp [hyd, hyr])]
    refine List.mem_bind.mpr ⟨d, hd, ?_⟩
    unfold dayLinks
    rw [if_pos hdm]
    unfold photoLinks
    exact List.mem_map.mpr ⟨p,
      List.mem_filter.mpr ⟨hp, by simp [hpr, hpl]⟩, rfl⟩

/-- C9 witness: a trip over two day directories holding `a.jpg` and
`b.jpg` links both files into `target/2023/T/`. -/
theorem C9_trip_linking_witness :
    process_trips_from_config_dict [⟨"T", "2023-07-15", "2023-07-16"⟩]
      ⟨true, [], []⟩
      [⟨"2023", true, [⟨"2023-07-15", true, [⟨"a.jpg", true, false⟩]⟩,
        ⟨"2023-07-16", true, [⟨"b.jpg", true, false⟩]⟩]⟩] false ⟨[], []⟩ =
      .ok ⟨[tripDirOf ⟨"T", "2023-07-15", "2023-07-16"⟩],
        treeLinks (tripDirOf ⟨"T", "2023-07-15", "2023-07-16"⟩)
          ⟨2023, 7, 15, 0, 0, 0⟩ ⟨2023, 7, 16, 0, 0, 0⟩
          [⟨"2023", true, [⟨"2023-07-15", true, [⟨"a.jpg", true, false⟩]⟩,
            ⟨"2023-07-16", true, [⟨"b.jpg", true, false⟩]⟩]⟩]⟩ :=
  (C9_trip_linking ⟨"T", "2023-07-15", "2023-07-16"⟩ ⟨true, [], []⟩
    [⟨"2023", true, [⟨"2023-07-15", true, [⟨"a.jpg", true, false⟩]⟩,
      ⟨"2023-07-16", true, [⟨"b.jpg", true, false⟩]⟩]⟩]
    ⟨2023, 7, 15, 0, 0, 0⟩ ⟨2023, 7, 16, 0, 0, 0⟩
    (by decide) (by decide) rfl (by simp) rfl
    (by
      intro y hy d hd _ _
      obtain rfl := List.mem_singleton.mp hy
      rcases List.mem_cons.mp hd with rfl | hd2
      · exact ⟨⟨2023, 7, 15, 0, 0, 0⟩, by decide⟩
      · obtain rfl := List.mem_singleton.mp hd2
        exact ⟨⟨2023, 7, 16, 0, 0, 0⟩, by decide⟩)
    (by decide)).1

end TripHistory

end PhotoOrg
